import Mathlib

/-!
# Client interface of `yt/go/yt`

A shallow embedding of the declarations of `yt/go/yt/interface.go`: the option
groups, the options structs with their `http` tags, and the operations of the
client interfaces with their `http:verb` and `http:params` annotations.
-/

namespace yt

/-! ## Go types and values -/

/-- The Go type of an option field, as far as its zero value is concerned. -/
inductive GoType
  | bool
  | int
  | string
  | guid
  | nilable
  deriving DecidableEq, Repr

/-- The identifier type `guid.GUID`; `TxID` and `MutationID` are GUIDs. -/
abbrev GUID := Nat

abbrev TxID := GUID

abbrev MutationID := GUID

/-- The type `ReadKind` is a Go string. -/
abbrev ReadKind := String

def ReadFromLeader : ReadKind := "leader"

def ReadFromFollower : ReadKind := "follower"

def ReadFromCache : ReadKind := "cache"

/-- The struct `PrerequisiteRevision`. -/
structure PrerequisiteRevision where
  Path : String
  TransactionID : TxID
  Revision : Nat
  deriving DecidableEq, Repr

/-- A value carried by a request parameter. `nil` is the nil pointer, slice,
map or interface; `any` is every other non-nil value, by its serialised form. -/
inductive Value
  | bool (b : Bool)
  | int (i : Int)
  | str (s : String)
  | guid (g : GUID)
  | guids (gs : List GUID)
  | revisions (rs : List PrerequisiteRevision)
  | nil
  | any (yson : String)
  deriving DecidableEq, Repr

/-- The zero value of a Go type. -/
def GoType.zero : GoType → Value
  | .bool => .bool false
  | .int => .int 0
  | .string => .str ""
  | .guid => .guid 0
  | .nilable => .nil

/-! ## Field and struct declarations -/

/-- A struct field with an `http` tag: Go name, type, parameter name, and
whether the tag carries `omitnil`. -/
structure FieldDecl where
  name : String
  typ : GoType
  http : String
  omitnil : Bool
  deriving DecidableEq, Repr

/-- The option groups: the structs that options structs embed by pointer. -/
inductive OptionGroup
  | Transaction
  | AccessTracking
  | Mutating
  | ReadRetry
  | MasterRead
  | Prerequisite
  | TabletRange
  deriving DecidableEq, Repr

/-- The tagged fields each option group declares, in declaration order. -/
def OptionGroup.fields : OptionGroup → List FieldDecl
  | .Transaction =>
    [ ⟨"TransactionID", .guid, "transaction_id", false⟩,
      ⟨"Ping", .bool, "ping", false⟩,
      ⟨"PingAncestors", .bool, "ping_ancestor_transactions", false⟩ ]
  | .AccessTracking =>
    [ ⟨"SuppressAccessTracking", .bool, "suppress_access_tracking", false⟩,
      ⟨"SuppressModificationTracking", .bool, "suppress_modification_tracking", false⟩ ]
  | .Mutating =>
    [ ⟨"MutationID", .guid, "mutation_id", false⟩,
      ⟨"Retry", .bool, "retry", false⟩ ]
  | .ReadRetry => []
  | .MasterRead =>
    [ ⟨"ReadFrom", .string, "read_from", false⟩ ]
  | .Prerequisite =>
    [ ⟨"TransactionIDs", .nilable, "prerequisite_transaction_ids", true⟩,
      ⟨"Revisions", .nilable, "prerequisite_revisions", true⟩ ]
  | .TabletRange =>
    [ ⟨"FirstTabletIndex", .int, "first_tablet_index", false⟩,
      ⟨"LastTabletIndex", .int, "last_tablet_index", false⟩ ]

/-- The parameter names an option group contributes. -/
def OptionGroup.names (g : OptionGroup) : List String :=
  g.fields.map FieldDecl.http

/-- All option groups. -/
def OptionGroup.all : List OptionGroup :=
  [.Transaction, .AccessTracking, .Mutating, .ReadRetry, .MasterRead, .Prerequisite,
   .TabletRange]

/-- A member of an options struct: a tagged field of its own, an embedded
option group, or a named field without `http` tag. -/
inductive Member
  | field (f : FieldDecl)
  | embed (g : OptionGroup)
  | plain (name : String)
  deriving DecidableEq, Repr

/-- The parameter names a member declares. -/
def Member.names : Member → List String
  | .field f => [f.http]
  | .embed g => g.names
  | .plain _ => []

/-- The tagged fields a member declares. -/
def Member.fields : Member → List FieldDecl
  | .field f => [f]
  | .embed g => g.fields
  | .plain _ => []

/-- An options struct: its name and its members in declaration order. -/
structure OptionsDecl where
  name : String
  members : List Member
  deriving DecidableEq, Repr

/-- The option groups an options struct embeds, in declaration order. -/
def OptionsDecl.groups (d : OptionsDecl) : List OptionGroup :=
  d.members.filterMap fun m =>
    match m with
    | .embed g => some g
    | _ => none

/-- The tagged fields an options struct declares itself. -/
def OptionsDecl.ownFields (d : OptionsDecl) : List FieldDecl :=
  d.members.filterMap fun m =>
    match m with
    | .field f => some f
    | _ => none

/-- The parameter names of the own fields of an options struct. -/
def OptionsDecl.ownNames (d : OptionsDecl) : List String :=
  d.ownFields.map FieldDecl.http

/-- The parameter names contributed by the embedded groups. -/
def OptionsDecl.groupNames (d : OptionsDecl) : List String :=
  d.groups.flatMap OptionGroup.names

/-- All tagged fields reachable through an options struct, embedded groups
included, in declaration order. -/
def OptionsDecl.allFields (d : OptionsDecl) : List FieldDecl :=
  d.members.flatMap Member.fields

/-- All parameter names an options struct can contribute. -/
def OptionsDecl.names (d : OptionsDecl) : List String :=
  d.members.flatMap Member.names

/-- A tagged own field without `omitnil`. -/
def fld (name : String) (typ : GoType) (http : String) : Member :=
  .field ⟨name, typ, http, false⟩

/-- A tagged own field with `omitnil`; such fields are pointers, slices, maps
or interfaces. -/
def fldOmitnil (name : String) (http : String) : Member :=
  .field ⟨name, .nilable, http, true⟩

/-! ## The options structs -/

def CreateNodeOptions : OptionsDecl :=
  ⟨"CreateNodeOptions",
   [ fld "Recursive" .bool "recursive",
     fld "IgnoreExisting" .bool "ignore_existing",
     fld "Force" .bool "force",
     fldOmitnil "Attributes" "attributes",
     .embed .Transaction, .embed .AccessTracking, .embed .Mutating, .embed .Prerequisite ]⟩

def CreateObjectOptions : OptionsDecl :=
  ⟨"CreateObjectOptions",
   [ fld "Recursive" .bool "recursive",
     fld "IgnoreExisting" .bool "ignore_existing",
     fld "Force" .bool "force",
     fldOmitnil "Attributes" "attributes",
     .embed .Prerequisite, .embed .AccessTracking, .embed .Mutating ]⟩

def NodeExistsOptions : OptionsDecl :=
  ⟨"NodeExistsOptions",
   [ .embed .MasterRead, .embed .Transaction, .embed .AccessTracking, .embed .ReadRetry ]⟩

def RemoveNodeOptions : OptionsDecl :=
  ⟨"RemoveNodeOptions",
   [ fld "Recursive" .bool "recursive",
     fld "Force" .bool "force",
     fldOmitnil "PreserveAccount" "preserve_account",
     fldOmitnil "PreserveExpirationTime" "preserve_expiration_time",
     fldOmitnil "PessimisticQuotaCheck" "pessimistic_quota_check",
     .embed .Transaction, .embed .AccessTracking, .embed .Prerequisite, .embed .Mutating ]⟩

def GetNodeOptions : OptionsDecl :=
  ⟨"GetNodeOptions",
   [ fldOmitnil "Attributes" "attributes",
     fldOmitnil "MaxSize" "max_size",
     .embed .Transaction, .embed .AccessTracking, .embed .Prerequisite, .embed .MasterRead,
     .embed .ReadRetry ]⟩

def SetNodeOptions : OptionsDecl :=
  ⟨"SetNodeOptions",
   [ fld "Recursive" .bool "recursive",
     fld "Force" .bool "force",
     .embed .Transaction, .embed .AccessTracking, .embed .Mutating, .embed .Prerequisite ]⟩

def ListNodeOptions : OptionsDecl :=
  ⟨"ListNodeOptions",
   [ fldOmitnil "Attributes" "attributes",
     fldOmitnil "MaxSize" "max_size",
     .embed .Transaction, .embed .MasterRead, .embed .AccessTracking, .embed .Prerequisite,
     .embed .ReadRetry ]⟩

def CopyNodeOptions : OptionsDecl :=
  ⟨"CopyNodeOptions",
   [ fld "Recursive" .bool "recursive",
     fld "IgnoreExisting" .bool "ignore_existing",
     fld "Force" .bool "force",
     fldOmitnil "PreserveAccount" "preserve_account",
     fldOmitnil "PreserveExpirationTime" "preserve_expiration_time",
     fldOmitnil "PreserveCreationTime" "preserve_creation_time",
     fldOmitnil "PessimisticQuotaCheck" "pessimistic_quota_check",
     .embed .Transaction, .embed .Mutating, .embed .Prerequisite ]⟩

def MoveNodeOptions : OptionsDecl :=
  ⟨"MoveNodeOptions",
   [ fld "Recursive" .bool "recursive",
     fld "Force" .bool "force",
     fldOmitnil "PreserveAccount" "preserve_account",
     fldOmitnil "PreserveExpirationTime" "preserve_expiration_time",
     fldOmitnil "PessimisticQuotaCheck" "pessimistic_quota_check",
     .embed .Transaction, .embed .Mutating, .embed .Prerequisite ]⟩

def LinkNodeOptions : OptionsDecl :=
  ⟨"LinkNodeOptions",
   [ fld "Recursive" .bool "recursive",
     fld "IgnoreExisting" .bool "ignore_existing",
     fld "Force" .bool "force",
     fldOmitnil "Attributes" "attributes",
     .embed .Transaction, .embed .Mutating, .embed .Prerequisite ]⟩

def StartTxOptions : OptionsDecl :=
  ⟨"StartTxOptions",
   [ fldOmitnil "Timeout" "timeout",
     fldOmitnil "Deadline" "deadline",
     fldOmitnil "ParentID" "parent_id",
     fld "Ping" .bool "ping",
     fld "PingAncestors" .bool "ping_ancestor_transactions",
     fldOmitnil "Type" "type",
     fld "Sticky" .bool "sticky",
     fldOmitnil "PrerequisiteTransactionIDs" "prerequisite_transaction_ids",
     fldOmitnil "Attributes" "attributes",
     fldOmitnil "Atomicity" "atomicity",
     .embed .Mutating ]⟩

def PingTxOptions : OptionsDecl :=
  ⟨"PingTxOptions", [ .embed .Transaction ]⟩

def AbortTxOptions : OptionsDecl :=
  ⟨"AbortTxOptions",
   [ fld "Sticky" .bool "sticky",
     .embed .Transaction, .embed .Mutating, .embed .Prerequisite ]⟩

def CommitTxOptions : OptionsDecl :=
  ⟨"CommitTxOptions",
   [ fld "Sticky" .bool "sticky",
     .embed .Mutating, .embed .Prerequisite, .embed .Transaction ]⟩

def WriteFileOptions : OptionsDecl :=
  ⟨"WriteFileOptions",
   [ fld "ComputeMD5" .bool "compute_md5",
     fld "FileWriter" .nilable "file_writer",
     .embed .Transaction, .embed .Prerequisite ]⟩

def ReadFileOptions : OptionsDecl :=
  ⟨"ReadFileOptions",
   [ fldOmitnil "Offset" "offset",
     fldOmitnil "Length" "length",
     fld "FileReader" .nilable "file_reader",
     .embed .Transaction, .embed .AccessTracking ]⟩

def PutFileToCacheOptions : OptionsDecl :=
  ⟨"PutFileToCacheOptions",
   [ fld "CachePath" .nilable "cache_path",
     .embed .MasterRead, .embed .Mutating, .embed .Prerequisite ]⟩

def GetFileFromCacheOptions : OptionsDecl :=
  ⟨"GetFileFromCacheOptions",
   [ fld "CachePath" .nilable "cache_path",
     .embed .MasterRead, .embed .ReadRetry ]⟩

def WriteTableOptions : OptionsDecl :=
  ⟨"WriteTableOptions",
   [ fld "TableWriter" .nilable "table_writer",
     .embed .Transaction, .embed .AccessTracking ]⟩

def ReadTableOptions : OptionsDecl :=
  ⟨"ReadTableOptions",
   [ fld "Unordered" .bool "unordered",
     fld "TableReader" .nilable "table_reader",
     fldOmitnil "ControlAttributes" "control_attributes",
     fldOmitnil "StartRowIndexOnly" "start_row_index_only",
     .embed .Transaction, .embed .AccessTracking ]⟩

def StartOperationOptions : OptionsDecl :=
  ⟨"StartOperationOptions", [ .embed .Transaction, .embed .Mutating ]⟩

def AbortOperationOptions : OptionsDecl :=
  ⟨"AbortOperationOptions", [ fldOmitnil "AbortMessage" "abort_message" ]⟩

def SuspendOperationOptions : OptionsDecl :=
  ⟨"SuspendOperationOptions", [ fld "AbortRunningJobs" .bool "abort_running_jobs" ]⟩

def ResumeOperationOptions : OptionsDecl :=
  ⟨"ResumeOperationOptions", []⟩

def CompleteOperationOptions : OptionsDecl :=
  ⟨"CompleteOperationOptions", []⟩

def UpdateOperationParametersOptions : OptionsDecl :=
  ⟨"UpdateOperationParametersOptions", []⟩

def ListOperationsOptions : OptionsDecl :=
  ⟨"ListOperationsOptions", [ .embed .MasterRead, .embed .ReadRetry ]⟩

def ListJobsOptions : OptionsDecl :=
  ⟨"ListJobsOptions",
   [ fldOmitnil "JobType" "job_type",
     fldOmitnil "JobState" "job_state",
     fldOmitnil "Address" "address",
     fldOmitnil "WithStderr" "with_stderr",
     fldOmitnil "WithFailContext" "with_fail_context",
     fldOmitnil "SortField" "sort_field",
     fldOmitnil "SortOrder" "sort_order",
     fldOmitnil "Limit" "limit",
     fldOmitnil "Offset" "offset",
     fldOmitnil "DataSource" "data_source" ]⟩

def GetJobStderrOptions : OptionsDecl :=
  ⟨"GetJobStderrOptions", []⟩

def GetOperationOptions : OptionsDecl :=
  ⟨"GetOperationOptions",
   [ fldOmitnil "Attributes" "attributes",
     fldOmitnil "IncludeRuntime" "include_runtime",
     .embed .MasterRead, .embed .ReadRetry ]⟩

def AddMemberOptions : OptionsDecl :=
  ⟨"AddMemberOptions", [ .embed .Mutating, .embed .Prerequisite ]⟩

def RemoveMemberOptions : OptionsDecl :=
  ⟨"RemoveMemberOptions", [ .embed .Mutating, .embed .Prerequisite ]⟩

def LockNodeOptions : OptionsDecl :=
  ⟨"LockNodeOptions",
   [ fld "Waitable" .bool "waitable",
     fldOmitnil "ChildKey" "child_key",
     fldOmitnil "AttributeKey" "attribute_key",
     .embed .Transaction, .embed .Mutating ]⟩

def UnlockNodeOptions : OptionsDecl :=
  ⟨"UnlockNodeOptions", [ .embed .Transaction, .embed .Mutating ]⟩

def MountTableOptions : OptionsDecl :=
  ⟨"MountTableOptions",
   [ .embed .TabletRange, .embed .Mutating,
     fldOmitnil "CellID" "cell_id",
     fldOmitnil "TargetCellIDs" "target_cell_ids",
     fld "Freeze" .bool "freeze" ]⟩

def UnmountTableOptions : OptionsDecl :=
  ⟨"UnmountTableOptions",
   [ .embed .TabletRange, .embed .Mutating,
     fld "Force" .bool "force" ]⟩

def RemountTableOptions : OptionsDecl :=
  ⟨"RemountTableOptions", [ .embed .TabletRange, .embed .Mutating ]⟩

def FreezeTableOptions : OptionsDecl :=
  ⟨"FreezeTableOptions", [ .embed .TabletRange, .embed .Mutating ]⟩

def UnfreezeTableOptions : OptionsDecl :=
  ⟨"UnfreezeTableOptions", [ .embed .TabletRange, .embed .Mutating ]⟩

def ReshardTableOptions : OptionsDecl :=
  ⟨"ReshardTableOptions",
   [ .embed .TabletRange, .embed .Mutating,
     fldOmitnil "PivotKeys" "pivot_keys",
     fldOmitnil "TabletCount" "tablet_count" ]⟩

def AlterTableOptions : OptionsDecl :=
  ⟨"AlterTableOptions",
   [ .embed .Mutating,
     fldOmitnil "Schema" "schema",
     fldOmitnil "Dynamic" "dynamic",
     fldOmitnil "UpstreamReplicaID" "upstream_replica_id" ]⟩

def AlterTableReplicaOptions : OptionsDecl :=
  ⟨"AlterTableReplicaOptions",
   [ fldOmitnil "Enabled" "enabled",
     fldOmitnil "Mode" "mode" ]⟩

def LookupRowsOptions : OptionsDecl :=
  ⟨"LookupRowsOptions",
   [ fld "KeepMissingRows" .bool "keep_missing_rows",
     .embed .Transaction ]⟩

def InsertRowsOptions : OptionsDecl :=
  ⟨"InsertRowsOptions",
   [ fldOmitnil "Atomicity" "atomicity",
     fldOmitnil "RequireSyncReplica" "require_sync_replica",
     fldOmitnil "Update" "update",
     .embed .Transaction ]⟩

def DeleteRowsOptions : OptionsDecl :=
  ⟨"DeleteRowsOptions",
   [ fldOmitnil "RequireSyncReplica" "require_sync_replica",
     .embed .Transaction ]⟩

def SelectRowsOptions : OptionsDecl :=
  ⟨"SelectRowsOptions",
   [ fldOmitnil "FailOnIncompleteResult" "fail_on_incomplete_result",
     fldOmitnil "InputRowLimit" "input_row_limit",
     fldOmitnil "OutputRowLimit" "output_row_limit",
     .embed .Transaction ]⟩

def StartTabletTxOptions : OptionsDecl :=
  ⟨"StartTabletTxOptions",
   [ fldOmitnil "Atomicity" "atomicity",
     fldOmitnil "Timeout" "timeout",
     .plain "Master",
     .plain "CommitOptions" ]⟩

def LocateSkynetShareOptions : OptionsDecl :=
  ⟨"LocateSkynetShareOptions", []⟩

def GenerateTimestampOptions : OptionsDecl :=
  ⟨"GenerateTimestampOptions", []⟩

/-- Every options struct declared in the file, in declaration order. -/
def allOptions : List OptionsDecl :=
  [ CreateNodeOptions, CreateObjectOptions, NodeExistsOptions, RemoveNodeOptions,
    GetNodeOptions, SetNodeOptions, ListNodeOptions, CopyNodeOptions, MoveNodeOptions,
    LinkNodeOptions, StartTxOptions, PingTxOptions, AbortTxOptions, CommitTxOptions,
    WriteFileOptions, ReadFileOptions, PutFileToCacheOptions, GetFileFromCacheOptions,
    WriteTableOptions, ReadTableOptions, StartOperationOptions, AbortOperationOptions,
    SuspendOperationOptions, ResumeOperationOptions, CompleteOperationOptions,
    UpdateOperationParametersOptions, ListOperationsOptions, ListJobsOptions,
    GetJobStderrOptions, GetOperationOptions, AddMemberOptions, RemoveMemberOptions,
    LockNodeOptions, UnlockNodeOptions, MountTableOptions, UnmountTableOptions,
    RemountTableOptions, FreezeTableOptions, UnfreezeTableOptions, ReshardTableOptions,
    AlterTableOptions, AlterTableReplicaOptions, LookupRowsOptions, InsertRowsOptions,
    DeleteRowsOptions, SelectRowsOptions, StartTabletTxOptions, LocateSkynetShareOptions,
    GenerateTimestampOptions ]

/-! ## The operations of the client interfaces -/

/-- An API method with an `http:verb` annotation: the interface declaring it,
its name, the verb, the required parameters of `http:params`, whether it is
marked `http:extra`, and its options struct. -/
structure Operation where
  iface : String
  method : String
  verb : String
  params : List String
  extra : Bool
  options : OptionsDecl
  deriving DecidableEq, Repr

def CreateNode : Operation :=
  ⟨"CypressClient", "CreateNode", "create", ["path", "type"], false, CreateNodeOptions⟩

def CreateObject : Operation :=
  ⟨"CypressClient", "CreateObject", "create", ["type"], false, CreateObjectOptions⟩

def NodeExists : Operation :=
  ⟨"CypressClient", "NodeExists", "exists", ["path"], false, NodeExistsOptions⟩

def RemoveNode : Operation :=
  ⟨"CypressClient", "RemoveNode", "remove", ["path"], false, RemoveNodeOptions⟩

def GetNode : Operation :=
  ⟨"CypressClient", "GetNode", "get", ["path"], true, GetNodeOptions⟩

def SetNode : Operation :=
  ⟨"CypressClient", "SetNode", "set", ["path"], true, SetNodeOptions⟩

def ListNode : Operation :=
  ⟨"CypressClient", "ListNode", "list", ["path"], true, ListNodeOptions⟩

def CopyNode : Operation :=
  ⟨"CypressClient", "CopyNode", "copy", ["source_path", "destination_path"], false,
   CopyNodeOptions⟩

def MoveNode : Operation :=
  ⟨"CypressClient", "MoveNode", "move", ["source_path", "destination_path"], false,
   MoveNodeOptions⟩

def LinkNode : Operation :=
  ⟨"CypressClient", "LinkNode", "link", ["target_path", "link_path"], false,
   LinkNodeOptions⟩

def StartTx : Operation :=
  ⟨"LowLevelTxClient", "StartTx", "start_transaction", [], false, StartTxOptions⟩

def PingTx : Operation :=
  ⟨"LowLevelTxClient", "PingTx", "ping_transaction", ["transaction_id"], false,
   PingTxOptions⟩

def AbortTx : Operation :=
  ⟨"LowLevelTxClient", "AbortTx", "abort_transaction", ["transaction_id"], false,
   AbortTxOptions⟩

def CommitTx : Operation :=
  ⟨"LowLevelTxClient", "CommitTx", "commit_transaction", ["transaction_id"], false,
   CommitTxOptions⟩

def WriteFile : Operation :=
  ⟨"FileClient", "WriteFile", "write_file", ["path"], false, WriteFileOptions⟩

def ReadFile : Operation :=
  ⟨"FileClient", "ReadFile", "read_file", ["path"], false, ReadFileOptions⟩

def PutFileToCache : Operation :=
  ⟨"FileClient", "PutFileToCache", "put_file_to_cache", ["path", "md5"], false,
   PutFileToCacheOptions⟩

def GetFileFromCache : Operation :=
  ⟨"FileClient", "GetFileFromCache", "get_file_from_cache", ["md5"], false,
   GetFileFromCacheOptions⟩

def WriteTable : Operation :=
  ⟨"TableClient", "WriteTable", "write_table", ["path"], false, WriteTableOptions⟩

def ReadTable : Operation :=
  ⟨"TableClient", "ReadTable", "read_table", ["path"], false, ReadTableOptions⟩

def StartOperation : Operation :=
  ⟨"OperationStartClient", "StartOperation", "start_operation", ["operation_type", "spec"],
   false, StartOperationOptions⟩

def AbortOperation : Operation :=
  ⟨"LowLevelSchedulerClient", "AbortOperation", "abort_operation", ["operation_id"], false,
   AbortOperationOptions⟩

def SuspendOperation : Operation :=
  ⟨"LowLevelSchedulerClient", "SuspendOperation", "suspend_operation", ["operation_id"],
   false, SuspendOperationOptions⟩

def ResumeOperation : Operation :=
  ⟨"LowLevelSchedulerClient", "ResumeOperation", "resume_operation", ["operation_id"],
   false, ResumeOperationOptions⟩

def CompleteOperation : Operation :=
  ⟨"LowLevelSchedulerClient", "CompleteOperation", "complete_operation", ["operation_id"],
   false, CompleteOperationOptions⟩

def UpdateOperationParameters : Operation :=
  ⟨"LowLevelSchedulerClient", "UpdateOperationParameters", "update_operation_parameters",
   ["operation_id", "parameters"], false, UpdateOperationParametersOptions⟩

def GetOperation : Operation :=
  ⟨"LowLevelSchedulerClient", "GetOperation", "get_operation", ["operation_id"], false,
   GetOperationOptions⟩

def ListOperations : Operation :=
  ⟨"LowLevelSchedulerClient", "ListOperations", "list_operations", [], false,
   ListOperationsOptions⟩

def ListJobs : Operation :=
  ⟨"LowLevelSchedulerClient", "ListJobs", "list_jobs", ["operation_id"], false,
   ListJobsOptions⟩

def GetJobStderr : Operation :=
  ⟨"LowLevelSchedulerClient", "GetJobStderr", "get_job_stderr", ["operation_id", "job_id"],
   false, GetJobStderrOptions⟩

def AddMember : Operation :=
  ⟨"AdminClient", "AddMember", "add_member", ["group", "member"], false, AddMemberOptions⟩

def RemoveMember : Operation :=
  ⟨"AdminClient", "RemoveMember", "remove_member", ["group", "member"], false,
   RemoveMemberOptions⟩

def LockNode : Operation :=
  ⟨"LockClient", "LockNode", "lock", ["path", "mode"], false, LockNodeOptions⟩

def UnlockNode : Operation :=
  ⟨"LockClient", "UnlockNode", "unlock", ["path"], false, UnlockNodeOptions⟩

def SelectRows : Operation :=
  ⟨"TabletClient", "SelectRows", "select_rows", ["query"], false, SelectRowsOptions⟩

def LookupRows : Operation :=
  ⟨"TabletClient", "LookupRows", "lookup_rows", ["path"], true, LookupRowsOptions⟩

def InsertRows : Operation :=
  ⟨"TabletClient", "InsertRows", "insert_rows", ["path"], true, InsertRowsOptions⟩

def DeleteRows : Operation :=
  ⟨"TabletClient", "DeleteRows", "delete_rows", ["path"], true, DeleteRowsOptions⟩

def MountTable : Operation :=
  ⟨"MountClient", "MountTable", "mount_table", ["path"], false, MountTableOptions⟩

def UnmountTable : Operation :=
  ⟨"MountClient", "UnmountTable", "unmount_table", ["path"], false, UnmountTableOptions⟩

def RemountTable : Operation :=
  ⟨"MountClient", "RemountTable", "remount_table", ["path"], false, RemountTableOptions⟩

def ReshardTable : Operation :=
  ⟨"MountClient", "ReshardTable", "reshard_table", ["path"], false, ReshardTableOptions⟩

def AlterTable : Operation :=
  ⟨"MountClient", "AlterTable", "alter_table", ["path"], false, AlterTableOptions⟩

def FreezeTable : Operation :=
  ⟨"MountClient", "FreezeTable", "freeze_table", ["path"], false, FreezeTableOptions⟩

def UnfreezeTable : Operation :=
  ⟨"MountClient", "UnfreezeTable", "unfreeze_table", ["path"], false, UnfreezeTableOptions⟩

def AlterTableReplica : Operation :=
  ⟨"MountClient", "AlterTableReplica", "alter_table_replica", ["replica_id"], false,
   AlterTableReplicaOptions⟩

def GenerateTimestamp : Operation :=
  ⟨"Client", "GenerateTimestamp", "generate_timestamp", [], false, GenerateTimestampOptions⟩

def LocateSkynetShare : Operation :=
  ⟨"Client", "LocateSkynetShare", "locate_skynet_share", ["path"], false,
   LocateSkynetShareOptions⟩

/-- Every operation declared in the client interfaces, in declaration order. -/
def allOperations : List Operation :=
  [ CreateNode, CreateObject, NodeExists, RemoveNode, GetNode, SetNode, ListNode, CopyNode,
    MoveNode, LinkNode, StartTx, PingTx, AbortTx, CommitTx, WriteFile, ReadFile,
    PutFileToCache, GetFileFromCache, WriteTable, ReadTable, StartOperation, AbortOperation,
    SuspendOperation, ResumeOperation, CompleteOperation, UpdateOperationParameters,
    GetOperation, ListOperations, ListJobs, GetJobStderr, AddMember, RemoveMember, LockNode,
    UnlockNode, SelectRows, LookupRows, InsertRows, DeleteRows, MountTable, UnmountTable,
    RemountTable, ReshardTable, AlterTable, FreezeTable, UnfreezeTable, AlterTableReplica,
    GenerateTimestamp, LocateSkynetShare ]

/-- Every parameter name a request of the operation can carry: the required
parameters, then the names of the options struct. -/
def Operation.paramNames (op : Operation) : List String :=
  op.params ++ op.options.names

/-! ## Values of the option groups and of the options structs -/

structure TransactionOptions where
  TransactionID : TxID
  Ping : Bool
  PingAncestors : Bool
  deriving DecidableEq, Repr

structure AccessTrackingOptions where
  SuppressAccessTracking : Bool
  SuppressModificationTracking : Bool
  deriving DecidableEq, Repr

structure MutatingOptions where
  MutationID : MutationID
  Retry : Bool
  deriving DecidableEq, Repr

structure ReadRetryOptions where
  deriving DecidableEq, Repr

structure MasterReadOptions where
  ReadFrom : ReadKind
  deriving DecidableEq, Repr

/-- The slices of `PrerequisiteOptions`; `none` is the nil slice. -/
structure PrerequisiteOptions where
  TransactionIDs : Option (List TxID)
  Revisions : Option (List PrerequisiteRevision)
  deriving DecidableEq, Repr

structure TabletRangeOptions where
  FirstTabletIndex : Int
  LastTabletIndex : Int
  deriving DecidableEq, Repr

/-- The Go zero value of `MasterReadOptions`: the empty string. -/
def MasterReadOptions.zero : MasterReadOptions :=
  ⟨""⟩

/-- An instance of one of the option groups. -/
inductive GroupValue
  | transaction (o : TransactionOptions)
  | accessTracking (o : AccessTrackingOptions)
  | mutating (o : MutatingOptions)
  | readRetry (o : ReadRetryOptions)
  | masterRead (o : MasterReadOptions)
  | prerequisite (o : PrerequisiteOptions)
  | tabletRange (o : TabletRangeOptions)
  deriving DecidableEq, Repr

/-- The option group an instance belongs to. -/
def GroupValue.group : GroupValue → OptionGroup
  | .transaction _ => .Transaction
  | .accessTracking _ => .AccessTracking
  | .mutating _ => .Mutating
  | .readRetry _ => .ReadRetry
  | .masterRead _ => .MasterRead
  | .prerequisite _ => .Prerequisite
  | .tabletRange _ => .TabletRange

/-- The field values of a group instance, in declaration order. -/
def GroupValue.values : GroupValue → List Value
  | .transaction o => [.guid o.TransactionID, .bool o.Ping, .bool o.PingAncestors]
  | .accessTracking o =>
    [.bool o.SuppressAccessTracking, .bool o.SuppressModificationTracking]
  | .mutating o => [.guid o.MutationID, .bool o.Retry]
  | .readRetry _ => []
  | .masterRead o => [.str o.ReadFrom]
  | .prerequisite o =>
    [ (match o.TransactionIDs with
       | none => .nil
       | some ids => .guids ids),
      (match o.Revisions with
       | none => .nil
       | some rs => .revisions rs) ]
  | .tabletRange o => [.int o.FirstTabletIndex, .int o.LastTabletIndex]

/-- A value of an options struct: the values of its own fields by Go name,
and for each option group the embedded pointer (`none` is nil). -/
structure OptionsValue where
  own : String → Value
  transaction : Option TransactionOptions
  accessTracking : Option AccessTrackingOptions
  mutating : Option MutatingOptions
  readRetry : Option ReadRetryOptions
  masterRead : Option MasterReadOptions
  prerequisite : Option PrerequisiteOptions
  tabletRange : Option TabletRangeOptions

/-- The embedded pointer of an options value for a group. -/
def OptionsValue.group (o : OptionsValue) : OptionGroup → Option GroupValue
  | .Transaction => o.transaction.map .transaction
  | .AccessTracking => o.accessTracking.map .accessTracking
  | .Mutating => o.mutating.map .mutating
  | .ReadRetry => o.readRetry.map .readRetry
  | .MasterRead => o.masterRead.map .masterRead
  | .Prerequisite => o.prerequisite.map .prerequisite
  | .TabletRange => o.tabletRange.map .tabletRange

/-- The Go zero value of an options struct: every own field at the zero value
of its type, every embedded pointer nil. -/
def OptionsDecl.zero (d : OptionsDecl) : OptionsValue :=
  ⟨fun goName =>
      match d.ownFields.find? (fun f => f.name == goName) with
      | some f => f.typ.zero
      | none => .nil,
    none, none, none, none, none, none, none⟩

/-! ## The Option Composer -/

/-- Modelled from the spec: the Option Composer's treatment of one field (the
generated `internal/params.go` is not among the sources). A field contributes
its parameter name with its value; a field tagged `omitnil` contributes
nothing when its value is nil. -/
def writeField (f : FieldDecl) (v : Value) : List (String × Value) :=
  if f.omitnil = true ∧ v = Value.nil then [] else [(f.http, v)]

/-- Modelled from the spec: the parameters one supplied group contributes, its
fields in declaration order. -/
def GroupValue.toParams (gv : GroupValue) : List (String × Value) :=
  (gv.group.fields.zip gv.values).flatMap fun p => writeField p.1 p.2

/-- Modelled from the spec: the Option Composer on an ordered list of supplied
groups, "given an ordered list of OptionGroup instances, produce the
flattened parameter set". -/
def flatten (gs : List GroupValue) : List (String × Value) :=
  gs.flatMap GroupValue.toParams

/-- Modelled from the spec: the parameters one member of an options struct
contributes; an absent group (nil embedded pointer) contributes nothing. -/
def writeMember (o : OptionsValue) : Member → List (String × Value)
  | .field f => writeField f (o.own f.name)
  | .embed g =>
    match o.group g with
    | none => []
    | some gv => gv.toParams
  | .plain _ => []

/-- Modelled from the spec: the parameters an options argument contributes,
its members in declaration order; `none` is the nil options pointer. -/
def writeOptions (d : OptionsDecl) : Option OptionsValue → List (String × Value)
  | none => []
  | some o => d.members.flatMap (writeMember o)

/-- Modelled from the spec: the parameters of a request, "a fixed parameter
set plus zero or more optional groups": the required parameters with the
arguments of the call, then the options. -/
def request (op : Operation) (args : String → Value) (o : Option OptionsValue) :
    List (String × Value) :=
  op.params.map (fun p => (p, args p)) ++ writeOptions op.options o

/-- Modelled from the spec: the default of a parameter of an options struct,
"the zero-value default" of the field declaring it. -/
def OptionsDecl.defaultOf (d : OptionsDecl) (n : String) : Value :=
  match d.allFields.find? (fun f => f.http == n) with
  | some f => f.typ.zero
  | none => .nil

/-- Modelled from the spec: the effective value of a parameter of a call,
"fields on an explicitly-supplied group override the zero-value default" and
"absent group = default behavior for that concern". -/
def effective (op : Operation) (args : String → Value) (o : Option OptionsValue)
    (n : String) : Value :=
  ((request op args o).lookup n).getD (op.options.defaultOf n)

/-! ## The Mutation Retry Coordinator -/

/-- Modelled from the spec: the error taxonomy of the retry policy (the retry
code of the client is not among the sources). Transient errors are eligible
for retry, permanent errors are never retried. -/
inductive ErrorKind
  | Transient
  | Permanent
  deriving DecidableEq, Repr

/-- Modelled from the spec: what the Request Dispatcher answers to one
attempt, "a typed result or a structured remote error". -/
inductive Outcome
  | ok
  | error (kind : ErrorKind)
  deriving DecidableEq, Repr

/-- Modelled from the spec: a generator of mutation ids, "generate a fresh
MutationID": whatever ids were issued so far, the next one is none of them. -/
structure IDSource where
  gen : List MutationID → MutationID
  fresh : ∀ issued, gen issued ∉ issued

/-- One attempt of a mutating call: the `MutatingOptions` sent with it and the
answer of the dispatcher. -/
structure Attempt where
  sent : MutatingOptions
  outcome : Outcome
  deriving DecidableEq, Repr

/-- Modelled from the spec: the attempts of one logical call from attempt
number `k` on, with `left` attempts left. Every attempt carries the id of the
call; `retry` is false on attempt 0 and true on any retry; only a transient
error is followed by another attempt. -/
def runAttempts (responses : Nat → Outcome) (id : MutationID) : (left k : Nat) → List Attempt
  | 0, _ => []
  | left + 1, k =>
    ⟨⟨id, decide (k ≠ 0)⟩, responses k⟩ ::
      (match responses k with
       | .error .Transient => runAttempts responses id left (k + 1)
       | _ => [])

/-- Modelled from the spec: one logical mutating call. A fresh id is generated
on the first attempt and the call is attempted at most `maxAttempts` times.
Returns the ids issued so far and the attempts made. -/
def mutatingCall (src : IDSource) (maxAttempts : Nat) (issued : List MutationID)
    (responses : Nat → Outcome) : List MutationID × List Attempt :=
  (src.gen issued :: issued, runAttempts responses (src.gen issued) maxAttempts 0)

/-- Modelled from the spec: a sequence of logical mutating calls, each given by
the answers the dispatcher will make to its attempts. Returns the attempts of
each call, in the order of the calls. -/
def runCalls (src : IDSource) (maxAttempts : Nat) :
    List MutationID → List (Nat → Outcome) → List (List Attempt)
  | _, [] => []
  | issued, responses :: rest =>
    (mutatingCall src maxAttempts issued responses).2 ::
      runCalls src maxAttempts (mutatingCall src maxAttempts issued responses).1 rest

/-- An id source that counts: the next id is one more than the largest id
issued so far. -/
def counterSource : IDSource :=
  ⟨fun issued => issued.foldr max 0 + 1, by
    intro issued h
    have hle : ∀ (l : List Nat) (x : Nat), x ∈ l → x ≤ l.foldr max 0 := by
      intro l
      induction l with
      | nil => intro x hx; cases hx
      | cons a t ih =>
        intro x hx
        rcases List.mem_cons.mp hx with rfl | hx
        · exact le_max_left _ _
        · exact le_trans (ih x hx) (le_max_right _ _)
    have hgen := hle issued _ h
    dsimp only at hgen
    omega⟩

end yt

/-!
# Remote errors of `yt/go/proto/core/misc`

The message `TError` of `error.pb.go` and its getters.
-/

namespace misc

/-- The message `TError`: an optional code, an optional message, optional
attributes and the inner errors. Pointers are options, `none` being nil; the
type `α` stands for `ytree.TAttributeDictionary`, which is declared in another
package. -/
inductive TError (α : Type) where
  | mk (Code : Option Int) (Message : Option String) (Attributes : Option α)
      (InnerErrors : List (Option (TError α)))

/-- The field `Code` of a `TError`. -/
def TError.Code {α : Type} : TError α → Option Int
  | .mk c _ _ _ => c

/-- The field `Message` of a `TError`. -/
def TError.Message {α : Type} : TError α → Option String
  | .mk _ m _ _ => m

/-- The field `Attributes` of a `TError`. -/
def TError.Attributes {α : Type} : TError α → Option α
  | .mk _ _ a _ => a

/-- The field `InnerErrors` of a `TError`. -/
def TError.InnerErrors {α : Type} : TError α → List (Option (TError α))
  | .mk _ _ _ inner => inner

/-- The getter `GetCode`: the stored code when the receiver and the code are
not nil, else 0. -/
def GetCode {α : Type} (x : Option (TError α)) : Int :=
  match x with
  | some e =>
    match e.Code with
    | some c => c
    | none => 0
  | none => 0

/-- The getter `GetMessage`: the stored message when the receiver and the
message are not nil, else the empty string. -/
def GetMessage {α : Type} (x : Option (TError α)) : String :=
  match x with
  | some e =>
    match e.Message with
    | some m => m
    | none => ""
  | none => ""

/-- The getter `GetAttributes`: the stored attributes of a non-nil receiver,
else nil. -/
def GetAttributes {α : Type} (x : Option (TError α)) : Option α :=
  match x with
  | some e => e.Attributes
  | none => none

/-- The getter `GetInnerErrors`: the stored inner errors of a non-nil
receiver, else nil. -/
def GetInnerErrors {α : Type} (x : Option (TError α)) : List (Option (TError α)) :=
  match x with
  | some e => e.InnerErrors
  | none => []

/-- Walking down an error tree with the getters only: at each step the inner
error at the given index of `GetInnerErrors`. -/
def causeAt {α : Type} (x : Option (TError α)) : List Nat → Option (TError α)
  | [] => x
  | i :: rest => causeAt ((GetInnerErrors x)[i]?).join rest

/-- The nested causes of an error: its inner errors, and their nested causes. -/
inductive IsCause {α : Type} : TError α → TError α → Prop
  | inner {root e : TError α} : some e ∈ root.InnerErrors → IsCause root e
  | deeper {root mid e : TError α} :
      some mid ∈ root.InnerErrors → IsCause mid e → IsCause root e

end misc

/-!
# The Transaction Tree Manager

The interface `Tx` of `interface.go` declares `Commit`, `Abort` and `Finished`;
the implementation is not among the sources.
-/

namespace yt

/-- Modelled from the spec: the state of a transaction (the implementation of
`Tx` is not among the sources), "state ∈ {Active, Committed, Aborted}". -/
inductive TxState
  | Active
  | Committed
  | Aborted
  deriving DecidableEq, Repr

/-- Modelled from the spec: the terminal states, "Active → {Committed,
Aborted} (both terminal; no transition out)". -/
def TxState.isTerminal : TxState → Bool
  | .Active => false
  | .Committed => true
  | .Aborted => true

/-- Modelled from the spec: the errors `Commit` and `Abort` return.
`StateViolation` is local misuse of the state machine, raised before any
remote call is made; `Remote` is a failure of the remote call. -/
inductive TxError
  | StateViolation
  | Remote
  deriving DecidableEq, Repr

/-- Modelled from the spec: the answer of the remote side to a commit or an
abort: success, a failure, or a failure that indicates that the transaction no
longer exists remotely. -/
inductive RemoteAnswer
  | success
  | failure
  | noSuchTransaction
  deriving DecidableEq, Repr

/-- Modelled from the spec: a transaction as the manager tracks it, its state
and the number of times the channel returned by `Finished` has been closed. -/
structure TxHandle where
  state : TxState
  finishedCloses : Nat
  deriving DecidableEq, Repr

/-- Modelled from the spec: a freshly started transaction, "on success records
a new Active transaction". -/
def TxHandle.start : TxHandle :=
  ⟨.Active, 0⟩

/-- Modelled from the spec: the move to a terminal state, which raises the
completion signal, "fires exactly once, when the transaction reaches either
terminal state". -/
def TxHandle.finish (t : TxHandle) (s : TxState) : TxHandle :=
  ⟨s, t.finishedCloses + 1⟩

/-- Modelled from the spec: `Commit`, "only legal from Active; on success
transitions to Committed; on failure the transaction remains Active unless the
failure indicates the transaction no longer exists remotely, in which case it
is forced to Aborted locally". -/
def TxHandle.Commit (t : TxHandle) (remote : RemoteAnswer) : TxHandle × Option TxError :=
  match t.state with
  | .Active =>
    match remote with
    | .success => (t.finish .Committed, none)
    | .failure => (t, some .Remote)
    | .noSuchTransaction => (t.finish .Aborted, some .Remote)
  | _ => (t, some .StateViolation)

/-- Modelled from the spec: `Abort`, "legal from Active". On a transaction that
is already terminal it is a double termination, "a programming error surfaced
as an error, not silently ignored" (invariant 1), "a second commit/abort on an
already-terminal transaction yields a StateViolation error" (section 8); the
state is left as it is, which is what section 4.3 calls idempotent. The spec
does not say what a failed remote abort leaves behind; `keepOnFailure` tells
whether the transaction then stays Active. -/
def TxHandle.Abort (keepOnFailure : Bool) (t : TxHandle) (remote : RemoteAnswer) :
    TxHandle × Option TxError :=
  match t.state with
  | .Active =>
    match remote with
    | .success => (t.finish .Aborted, none)
    | .noSuchTransaction => (t.finish .Aborted, some .Remote)
    | .failure => (if keepOnFailure then t else t.finish .Aborted, some .Remote)
  | _ => (t, some .StateViolation)

/-- Modelled from the spec: cancellation of the ctx passed to `BeginTx`, "on
cancellation it issues a best-effort Abort call and transitions the
transaction to Aborted locally regardless of whether the remote abort
succeeds"; a terminal state has no transition out. -/
def TxHandle.Cancel (t : TxHandle) (_remote : RemoteAnswer) : TxHandle :=
  match t.state with
  | .Active => t.finish .Aborted
  | _ => t

/-- Modelled from the spec: the ping loop failing to renew before the
server-side timeout, "the transaction is treated as Aborted locally and a
completion signal is raised". -/
def TxHandle.PingExpired (t : TxHandle) : TxHandle :=
  match t.state with
  | .Active => t.finish .Aborted
  | _ => t

/-- What can happen to a transaction: a call of `Commit` or `Abort` with the
answer of the remote side, the cancellation of its ctx, the expiry of its
lease. -/
inductive TxEvent
  | commit (remote : RemoteAnswer)
  | abort (remote : RemoteAnswer)
  | cancel (remote : RemoteAnswer)
  | pingExpired
  deriving DecidableEq, Repr

/-- One step of a transaction: the new handle and the error returned to the
caller, if the event is a call that returns one. -/
def TxHandle.step (keepOnFailure : Bool) (t : TxHandle) : TxEvent → TxHandle × Option TxError
  | .commit r => t.Commit r
  | .abort r => t.Abort keepOnFailure r
  | .cancel r => (t.Cancel r, none)
  | .pingExpired => (t.PingExpired, none)

/-- A run of a transaction: the handle after a sequence of events. -/
def TxHandle.run (keepOnFailure : Bool) (t : TxHandle) (events : List TxEvent) : TxHandle :=
  events.foldl (fun h e => (h.step keepOnFailure e).1) t

/-- Modelled from the spec: the default bound of the retry policy, "default 5
attempts". -/
def defaultMaxAttempts : Nat := 5

/-- Modelled from the spec: what a call surfaces to its caller, the answer to
its last attempt, "only the final failure is surfaced". -/
def surfaced (attempts : List Attempt) : Option Outcome :=
  attempts.getLast?.map Attempt.outcome

end yt

/-!
# Job file system configuration of `yt/go/ytrecipe/internal/jobfs`

The struct `Config` of `config.go` and its method `Validate`.
-/

namespace jobfs

/-- The struct `Config`. -/
structure Config where
  UploadFile : List String
  UploadTarDir : List String
  UploadStructure : List String
  StdoutFile : String
  StderrFile : String
  Outputs : List String
  YTOutputs : List String
  CoredumpDir : String
  Ext4Dirs : List String
  Download : List (String × String)
  deriving DecidableEq, Repr

/-- The errors `Validate` reports, one constructor per message:
`"coredump_dir" is empty`, `file %q is located inside tar dir %q` and
`tar dir %q is located inside tar dir %q`, with the arguments of the message. -/
inductive ValidateError
  | coredumpDirEmpty
  | fileInsideTarDir (file tarDir : String)
  | tarDirInsideTarDir (outerTarDir tarDir : String)
  deriving DecidableEq, Repr

/-- The constant `filepath.Separator`, on Unix. -/
def Separator : Char := '/'

/-- The function `strings.HasPrefix`. -/
def HasPrefix (s pre : String) : Bool :=
  pre.data.isPrefixOf s.data

/-- The closure `isInside` of `Validate`; the function `filepath.Clean` of the
Go standard library is the parameter `clean`. -/
def isInside (clean : String → String) (obj dir : String) : Bool :=
  HasPrefix (clean obj) (clean dir ++ String.singleton Separator)

/-- The method `Validate`: the errors appended to `errs`, in order, by the
test of `CoredumpDir` and by the two nested loops. -/
def Validate (clean : String → String) (c : Config) : List ValidateError :=
  let errs : List ValidateError := []
  let errs := if c.CoredumpDir = "" then errs ++ [.coredumpDirEmpty] else errs
  let errs := c.UploadFile.foldl (fun errs file =>
    c.UploadTarDir.foldl (fun errs tarDir =>
      if isInside clean file tarDir then errs ++ [.fileInsideTarDir file tarDir] else errs)
      errs) errs
  let errs := c.UploadTarDir.foldl (fun errs outerTarDir =>
    c.UploadTarDir.foldl (fun errs tarDir =>
      if isInside clean outerTarDir tarDir then
        errs ++ [.tarDirInsideTarDir outerTarDir tarDir]
      else errs)
      errs) errs
  errs

/-- The pairs `(obj, dir)` for which the containment test holds, iterating
`objs` in order and for each of them `dirs` in order. -/
def insidePairs (clean : String → String) (objs dirs : List String) : List (String × String) :=
  objs.flatMap fun obj => (dirs.filter fun dir => isInside clean obj dir).map fun dir => (obj, dir)

/-- The list of errors as the claim describes it: the error of an empty
`CoredumpDir`, then one error per pair of a file inside a tar dir, then one
error per pair of a tar dir inside a tar dir. -/
def validateSpec (clean : String → String) (c : Config) : List ValidateError :=
  (if c.CoredumpDir = "" then [ValidateError.coredumpDirEmpty] else []) ++
    (insidePairs clean c.UploadFile c.UploadTarDir).map
      (fun p => ValidateError.fileInsideTarDir p.1 p.2) ++
    (insidePairs clean c.UploadTarDir c.UploadTarDir).map
      (fun p => ValidateError.tarDirInsideTarDir p.1 p.2)

/-- The position of an error in a config: the test of `CoredumpDir`, or the
indices of a pair of the file pass or of the tar dir pass. -/
inductive ErrorIndex
  | coredumpDir
  | file (i j : Nat)
  | tarDir (i j : Nat)
  deriving DecidableEq, Repr

/-- The index pairs `(i, j)` for which the containment test holds between
`objs[i]` and `dirs[j]`, in the order of the loops. -/
def insideIndices (clean : String → String) (objs dirs : List String) : List (Nat × Nat) :=
  (List.range objs.length).flatMap fun i =>
    ((List.range dirs.length).filter fun j =>
      isInside clean (objs.getD i "") (dirs.getD j "")).map fun j => (i, j)

/-- The positions of the errors of a config, in the order of `Validate`. -/
def validateIndices (clean : String → String) (c : Config) : List ErrorIndex :=
  (if c.CoredumpDir = "" then [ErrorIndex.coredumpDir] else []) ++
    (insideIndices clean c.UploadFile c.UploadTarDir).map (fun p => ErrorIndex.file p.1 p.2) ++
    (insideIndices clean c.UploadTarDir c.UploadTarDir).map
      (fun p => ErrorIndex.tarDir p.1 p.2)

/-- The error of a config at a position. -/
def Config.errorAt (c : Config) : ErrorIndex → ValidateError
  | .coredumpDir => .coredumpDirEmpty
  | .file i j => .fileInsideTarDir (c.UploadFile.getD i "") (c.UploadTarDir.getD j "")
  | .tarDir i j => .tarDirInsideTarDir (c.UploadTarDir.getD i "") (c.UploadTarDir.getD j "")

/-- The elements of a path between its slashes. -/
def splitSlash : List Char → List (List Char)
  | [] => [[]]
  | c :: cs =>
    if c = '/' then [] :: splitSlash cs
    else
      match splitSlash cs with
      | [] => [[c]]
      | e :: es => (c :: e) :: es

/-- One element of a path met by `filepath.Clean`; `stack` holds the elements
kept so far, the last one first. An empty element and `.` are dropped; `..`
removes the element before it, is dropped at the root, and is kept where a
relative path has nothing left to remove. -/
def cleanStep (rooted : Bool) (stack : List (List Char)) (elem : List Char) :
    List (List Char) :=
  if elem = [] ∨ elem = ['.'] then stack
  else if elem = ['.', '.'] then
    match stack with
    | top :: rest => if top = ['.', '.'] then elem :: stack else rest
    | [] => if rooted then [] else [elem]
  else elem :: stack

/-- The function `filepath.Clean` of the Go standard library, on Unix, by the
rules of its documentation: multiple slashes become one, `.` elements go, a
`..` element goes with the element before it, `..` elements at the root go,
and the empty result is `.`. -/
def Clean (path : String) : String :=
  let rooted : Bool := path.data.head? = some '/'
  let body : List Char :=
    List.intercalate ['/'] ((splitSlash path.data).foldl (cleanStep rooted) []).reverse
  if rooted then ⟨'/' :: body⟩ else if body = [] then "." else ⟨body⟩

/-- Whether a cleaned path is rooted. -/
def isRooted (p : String) : Bool :=
  p.data.head? = some '/'

/-- The path components of a cleaned path, below the root or the current
directory. -/
def components (p : String) : List (List Char) :=
  (splitSlash p.data).filter fun e => decide (e ≠ [] ∧ e ≠ ['.'])

/-- The containment of the claim, on cleaned paths: `f` lies strictly below
`d` in the directory hierarchy when the components of `d` are a proper prefix
of the components of `f`, both from the same origin. -/
def liesStrictlyBelow (f d : String) : Bool :=
  (isRooted f == isRooted d) && (components d).isPrefixOf (components f) &&
    decide ((components d).length < (components f).length)

end jobfs

/-!
# Operation configuration of `yt/go/ytrecipe/internal/job`

The struct `OperationConfig` of `config.go` and its directory methods.
-/

namespace ypath

/-- The type `ypath.Path` is a Go string. -/
abbrev Path := String

/-- Modelled from the spec: the method `ypath.Path.Child`, whose package is not
among the sources. The child of a path is the path, a slash and the name of
the child. -/
def Path.Child (p : Path) (name : String) : Path :=
  p ++ "/" ++ name

end ypath

namespace job

/-- The struct `OperationConfig`; `F` stands for `float64` and `A` for
`interface{}`, durations are counted in nanoseconds. -/
structure OperationConfig (F A : Type) where
  Cluster : String
  Pool : String
  Title : String
  CypressRoot : ypath.Path
  OutputTTL : Int
  BlobTTL : Int
  CoordinateUpload : Bool
  CPULimit : F
  MemoryLimit : Int
  Timeout : Int
  EnablePorto : Bool
  EnableNetwork : Bool
  SpecPatch : A
  TaskPatch : A

def OutputDir : String := "output"

def CacheDir : String := "cache"

def TmpDir : String := "tmp"

/-- The method `TmpDir`. -/
def OperationConfig.TmpDir {F A : Type} (c : OperationConfig F A) : ypath.Path :=
  ypath.Path.Child c.CypressRoot job.TmpDir

/-- The method `CacheDir`. -/
def OperationConfig.CacheDir {F A : Type} (c : OperationConfig F A) : ypath.Path :=
  ypath.Path.Child c.CypressRoot job.CacheDir

/-- The method `OutputDir`. -/
def OperationConfig.OutputDir {F A : Type} (c : OperationConfig F A) : ypath.Path :=
  ypath.Path.Child c.CypressRoot job.OutputDir

end job

/-! # Properties of the declarations -/

namespace yt

/-- C2: the option groups contribute pairwise disjoint sets of parameter
names: no `http` name declared by one group is declared by another group. -/
theorem optionGroup_names_disjoint (g h : OptionGroup) (hne : g ≠ h) :
    ∀ n ∈ g.names, n ∉ h.names := by
  cases g <;> cases h <;> first
    | exact absurd rfl hne
    | decide

theorem optionGroup_names_disjoint_witness :
    "ping" ∉ OptionGroup.AccessTracking.names :=
  optionGroup_names_disjoint .Transaction .AccessTracking (by decide) "ping" (by decide)

/-- C3, as stated, fails: `PingTx`, `AbortTx` and `CommitTx` each declare the
parameter name `transaction_id` twice, as required parameter and through the
embedded `TransactionOptions`. -/
theorem txOperations_paramNames_not_nodup :
    ¬ PingTx.paramNames.Nodup ∧ ¬ AbortTx.paramNames.Nodup ∧ ¬ CommitTx.paramNames.Nodup := by
  decide

set_option maxRecDepth 100000 in
/-- C3, amended: for every operation the required parameters are pairwise
distinct, and the names of the own fields and of the embedded groups of its
options struct are pairwise distinct; for every operation other than `PingTx`,
`AbortTx` and `CommitTx` all of these names together are pairwise distinct;
and a required parameter that is also a name of the options struct can only be
`transaction_id` of one of these three operations. -/
theorem paramNames_nodup_of_not_txOperation (op : Operation) (hop : op ∈ allOperations) :
    op.params.Nodup ∧ op.options.names.Nodup ∧
    (op.method ∉ ["PingTx", "AbortTx", "CommitTx"] → op.paramNames.Nodup) ∧
    (∀ n ∈ op.params, n ∈ op.options.names →
      n = "transaction_id" ∧ op.method ∈ ["PingTx", "AbortTx", "CommitTx"]) := by
  revert op
  decide

theorem paramNames_nodup_of_not_txOperation_witness : CreateNode.paramNames.Nodup :=
  (paramNames_nodup_of_not_txOperation CreateNode (by decide)).2.2.1 (by decide)

/-- C5, as stated, fails: the options of `InsertRows` and `DeleteRows` embed no
Mutating group, and their requests declare neither `mutation_id` nor `retry`. -/
theorem insertRows_deleteRows_not_mutating :
    OptionGroup.Mutating ∉ InsertRows.options.groups ∧
    OptionGroup.Mutating ∉ DeleteRows.options.groups ∧
    "mutation_id" ∉ InsertRows.paramNames ∧ "retry" ∉ InsertRows.paramNames ∧
    "mutation_id" ∉ DeleteRows.paramNames ∧ "retry" ∉ DeleteRows.paramNames := by
  decide

/-- C5, amended: the tablet operations are `SelectRows`, `LookupRows`,
`InsertRows` and `DeleteRows`, and the options struct of each of them, the
writes as well as the reads, embeds exactly the Transaction group: none of
them carries a Mutating group. -/
theorem tabletOperations_groups :
    allOperations.filter (fun op => op.iface == "TabletClient") =
      [SelectRows, LookupRows, InsertRows, DeleteRows] ∧
    SelectRows.options.groups = [.Transaction] ∧
    LookupRows.options.groups = [.Transaction] ∧
    InsertRows.options.groups = [.Transaction] ∧
    DeleteRows.options.groups = [.Transaction] := by
  decide

set_option maxRecDepth 100000 in
/-- C6: `ReadRetryOptions` declares no field and contributes no parameter
name, and no options struct that embeds it also embeds `MutatingOptions`: an
operation whose options embed `ReadRetryOptions` declares neither
`mutation_id` nor `retry`. -/
theorem readRetry_is_marker :
    OptionGroup.ReadRetry.fields = [] ∧ OptionGroup.ReadRetry.names = [] ∧
    (∀ d ∈ allOptions, OptionGroup.ReadRetry ∈ d.groups →
      OptionGroup.Mutating ∉ d.groups ∧ "mutation_id" ∉ d.names ∧ "retry" ∉ d.names) ∧
    (∀ op ∈ allOperations, OptionGroup.ReadRetry ∈ op.options.groups →
      "mutation_id" ∉ op.paramNames ∧ "retry" ∉ op.paramNames) := by
  decide

theorem readRetry_is_marker_witness :
    OptionGroup.Mutating ∉ NodeExistsOptions.groups ∧
    "mutation_id" ∉ NodeExistsOptions.names ∧ "retry" ∉ NodeExistsOptions.names :=
  readRetry_is_marker.2.2.1 NodeExistsOptions (by decide) (by decide)

/-- C8, as stated, fails: the zero value of `MasterReadOptions` does not have
`ReadFrom` equal to `ReadFromFollower`. -/
theorem masterReadOptions_zero_ne_follower :
    MasterReadOptions.zero.ReadFrom ≠ ReadFromFollower := by
  decide

/-- C8, amended: the zero value of `MasterReadOptions` has `ReadFrom` equal to
the empty string, which is none of the three read kinds, and the read kinds
leader, follower and cache are pairwise distinct. -/
theorem masterReadOptions_zero_readFrom :
    MasterReadOptions.zero.ReadFrom = "" ∧
    MasterReadOptions.zero.ReadFrom ∉ [ReadFromLeader, ReadFromFollower, ReadFromCache] ∧
    ReadFromLeader ≠ ReadFromFollower ∧ ReadFromFollower ≠ ReadFromCache ∧
    ReadFromLeader ≠ ReadFromCache := by
  decide

/-- C9, as stated, fails: the option groups of `CommitTxOptions` are not
exactly Mutating and Prerequisite, the struct also embeds Transaction. -/
theorem commitTx_groups_not_mutating_prerequisite :
    ¬ (∀ g, g ∈ CommitTx.options.groups ↔
        g ∈ [OptionGroup.Mutating, OptionGroup.Prerequisite]) := by
  intro h
  have hmem : OptionGroup.Transaction ∈ [OptionGroup.Mutating, OptionGroup.Prerequisite] :=
    (h .Transaction).mp (by decide)
  revert hmem
  decide

set_option maxRecDepth 100000 in
/-- C9, amended: the commit-transaction operation maps to verb
`commit_transaction` with the single required parameter `transaction_id`, and
the option groups embedded by its options struct are exactly Mutating,
Prerequisite and Transaction. -/
theorem commitTx_declaration (op : Operation) (hop : op ∈ allOperations)
    (hm : op.method = "CommitTx") :
    op.verb = "commit_transaction" ∧ op.params = ["transaction_id"] ∧
    op.options.name = "CommitTxOptions" ∧
    op.options.groups = [.Mutating, .Prerequisite, .Transaction] := by
  revert op
  decide

theorem commitTx_declaration_witness :
    CommitTx.verb = "commit_transaction" ∧ CommitTx.params = ["transaction_id"] ∧
    CommitTx.options.name = "CommitTxOptions" ∧
    CommitTx.options.groups = [.Mutating, .Prerequisite, .Transaction] :=
  commitTx_declaration CommitTx (by decide) (by decide)

set_option maxRecDepth 100000 in
/-- C10: the create-node operation maps to verb `create` with required
parameters `path` and `type`, and the option groups embedded by its options
struct are exactly Transaction, AccessTracking, Mutating and Prerequisite. -/
theorem createNode_declaration (op : Operation) (hop : op ∈ allOperations)
    (hm : op.method = "CreateNode") :
    op.verb = "create" ∧ op.params = ["path", "type"] ∧
    op.options.name = "CreateNodeOptions" ∧
    op.options.groups = [.Transaction, .AccessTracking, .Mutating, .Prerequisite] := by
  revert op
  decide

theorem createNode_declaration_witness :
    CreateNode.verb = "create" ∧ CreateNode.params = ["path", "type"] ∧
    CreateNode.options.name = "CreateNodeOptions" ∧
    CreateNode.options.groups = [.Transaction, .AccessTracking, .Mutating, .Prerequisite] :=
  createNode_declaration CreateNode (by decide) (by decide)

end yt

/-! # Properties of the Option Composer -/

namespace yt

/-- With distinct keys, a lookup finds exactly the pairs of the list. -/
theorem lookup_eq_some_iff_mem {l : List (String × Value)} (nd : (l.map Prod.fst).Nodup)
    (n : String) (v : Value) : l.lookup n = some v ↔ (n, v) ∈ l := by
  induction l with
  | nil => simp
  | cons p t ih =>
    obtain ⟨k, b⟩ := p
    rw [List.map_cons, List.nodup_cons] at nd
    rw [List.lookup_cons, List.mem_cons]
    by_cases hk : n = k
    · subst hk
      have hnot : (n, v) ∉ t := fun hm =>
        nd.1 (List.mem_map.mpr ⟨(n, v), hm, rfl⟩)
      simp only [beq_self_eq_true, Option.some.injEq, Prod.mk.injEq, true_and]
      constructor
      · intro hb
        exact Or.inl hb.symm
      · rintro (hb | hm)
        · exact hb.symm
        · exact absurd hm hnot
    · have hbeq : (n == k) = false := by simpa using hk
      simp only [hbeq, Prod.mk.injEq, hk, false_and, false_or]
      exact ih nd.2

/-- With distinct keys, a lookup does not depend on the order of the list. -/
theorem lookup_eq_of_perm {l₁ l₂ : List (String × Value)} (h : l₁.Perm l₂)
    (nd : (l₁.map Prod.fst).Nodup) (n : String) : l₁.lookup n = l₂.lookup n := by
  have nd₂ : (l₂.map Prod.fst).Nodup := (h.map Prod.fst).nodup_iff.mp nd
  apply Option.ext
  intro v
  rw [Option.mem_def, Option.mem_def, lookup_eq_some_iff_mem nd, lookup_eq_some_iff_mem nd₂,
    h.mem_iff]

/-- A lookup of a name that is no key finds nothing. -/
theorem lookup_eq_none_of_not_mem {l : List (String × Value)} {n : String}
    (h : n ∉ l.map Prod.fst) : l.lookup n = none := by
  rw [List.lookup_eq_none_iff]
  intro p hp
  have hne : n ≠ p.1 := fun he => h (he ▸ List.mem_map_of_mem Prod.fst hp)
  simpa using hne

/-- Pointwise sublists give a sublist of the concatenations. -/
theorem flatMap_sublist_flatMap {α β : Type} (f g : α → List β) (l : List α)
    (h : ∀ x ∈ l, (f x).Sublist (g x)) : (l.flatMap f).Sublist (l.flatMap g) := by
  induction l with
  | nil => simp
  | cons a t ih =>
    rw [List.flatMap_cons, List.flatMap_cons]
    exact (h a (List.mem_cons_self a t)).append
      (ih fun x hx => h x (List.mem_cons_of_mem a hx))

/-- The only key a field can contribute is its parameter name. -/
theorem keys_writeField_sublist (f : FieldDecl) (v : Value) :
    ((writeField f v).map Prod.fst).Sublist [f.http] := by
  unfold writeField
  split
  · simp
  · simp

/-- The keys of fields written against values are among the names of the fields. -/
theorem keys_zip_sublist (fs : List FieldDecl) (vs : List Value) :
    (((fs.zip vs).flatMap fun p => writeField p.1 p.2).map Prod.fst).Sublist
      (fs.map FieldDecl.http) := by
  induction fs generalizing vs with
  | nil => simp
  | cons f t ih =>
    cases vs with
    | nil => simp
    | cons v w =>
      rw [List.zip_cons_cons, List.flatMap_cons, List.map_append, List.map_cons]
      exact (keys_writeField_sublist f v).append (ih w)

/-- The keys a group instance contributes are among the names of its group. -/
theorem keys_toParams_sublist (gv : GroupValue) :
    (gv.toParams.map Prod.fst).Sublist gv.group.names :=
  keys_zip_sublist gv.group.fields gv.values

/-- The embedded value of an options value for a group is of that group. -/
theorem group_of_group_eq_some {o : OptionsValue} {g : OptionGroup} {gv : GroupValue}
    (h : o.group g = some gv) : gv.group = g := by
  cases g <;> simp only [OptionsValue.group, Option.map_eq_some'] at h <;>
    obtain ⟨x, _, rfl⟩ := h <;> rfl

/-- The keys a member contributes are among the names it declares. -/
theorem keys_writeMember_sublist (o : OptionsValue) (m : Member) :
    ((writeMember o m).map Prod.fst).Sublist m.names := by
  cases m with
  | field f => exact keys_writeField_sublist f (o.own f.name)
  | embed g =>
    simp only [writeMember, Member.names]
    cases hg : o.group g with
    | none => simp
    | some gv =>
      have hgv := keys_toParams_sublist gv
      rw [group_of_group_eq_some hg] at hgv
      exact hgv
  | plain s => simp [writeMember, Member.names]

/-- The keys of written options are among the names of the options struct. -/
theorem keys_writeOptions_sublist (d : OptionsDecl) (o : OptionsValue) :
    ((writeOptions d (some o)).map Prod.fst).Sublist d.names := by
  simp only [writeOptions, OptionsDecl.names, List.map_flatMap]
  exact flatMap_sublist_flatMap _ _ _ fun m _ => keys_writeMember_sublist o m

/-- The keys of flattened groups are among the names of their groups. -/
theorem keys_flatten_sublist (gs : List GroupValue) :
    ((flatten gs).map Prod.fst).Sublist ((gs.map GroupValue.group).flatMap OptionGroup.names) := by
  simp only [flatten, List.map_flatMap, List.flatMap_map]
  exact flatMap_sublist_flatMap _ _ _ fun gv _ => keys_toParams_sublist gv

/-- The names of one option group are pairwise distinct. -/
theorem optionGroup_names_nodup (g : OptionGroup) : g.names.Nodup := by
  cases g <;> decide

/-- Disjointness of the names of distinct option groups. -/
theorem names_disjoint_of_group_ne {g h : OptionGroup} (hne : g ≠ h) :
    List.Disjoint g.names h.names := by
  intro n hg hh
  revert n
  cases g <;> cases h <;> first
    | exact absurd rfl hne
    | decide

/-- Distinct option groups contribute pairwise distinct names. -/
theorem nodup_flatMap_names {l : List OptionGroup} (h : l.Nodup) :
    (l.flatMap OptionGroup.names).Nodup := by
  rw [List.nodup_flatMap]
  refine ⟨fun g _ => optionGroup_names_nodup g, ?_⟩
  exact List.Pairwise.imp (fun hne => names_disjoint_of_group_ne hne) h

/-- Flattening supplied groups of distinct kinds: the lookup of a name does
not depend on the order of the groups. -/
theorem lookup_flatten_perm {gs gs₂ : List GroupValue} (hp : gs.Perm gs₂)
    (nd : (gs.map GroupValue.group).Nodup) (n : String) :
    (flatten gs).lookup n = (flatten gs₂).lookup n :=
  lookup_eq_of_perm (hp.flatMap_right _)
    ((keys_flatten_sublist gs).nodup (nodup_flatMap_names nd)) n

/-- Writing an options value against two declarations with the same members
in different orders: the lookup of a name is the same. -/
theorem lookup_writeOptions_perm {d d₂ : OptionsDecl} (hp : d.members.Perm d₂.members)
    (nd : d.names.Nodup) (o : OptionsValue) (n : String) :
    (writeOptions d (some o)).lookup n = (writeOptions d₂ (some o)).lookup n :=
  lookup_eq_of_perm (hp.flatMap_right _) ((keys_writeOptions_sublist d o).nodup nd) n

/-- With distinct names, the lookup of a name declared by a member finds what
that member contributes. -/
theorem lookup_writeOptions_of_mem {d : OptionsDecl} (nd : d.names.Nodup) (o : OptionsValue)
    {m : Member} (hm : m ∈ d.members) {n : String} (hn : n ∈ m.names) :
    (writeOptions d (some o)).lookup n = (writeMember o m).lookup n := by
  have hp : d.members.Perm (m :: d.members.erase m) := List.perm_cons_erase hm
  have nd₂ : ((m :: d.members.erase m).flatMap Member.names).Nodup :=
    ((hp.flatMap_right Member.names).nodup_iff).mp nd
  have hkeys := (keys_writeOptions_sublist d o).nodup nd
  show (d.members.flatMap (writeMember o)).lookup n = _
  rw [lookup_eq_of_perm (hp.flatMap_right (writeMember o)) hkeys n]
  rw [List.flatMap_cons, List.lookup_append]
  rw [List.flatMap_cons, List.nodup_append] at nd₂
  have hrest : ((d.members.erase m).flatMap (writeMember o)).lookup n = none := by
    apply lookup_eq_none_of_not_mem
    intro hmem
    have hsub := flatMap_sublist_flatMap (fun x => (writeMember o x).map Prod.fst)
      Member.names (d.members.erase m) fun x _ => keys_writeMember_sublist o x
    rw [List.map_flatMap] at hmem
    exact nd₂.2.2 hn (hsub.subset hmem)
  rw [hrest]
  cases (writeMember o m).lookup n <;> rfl

end yt

namespace yt

/-- C1: option composition is order-independent. Flattening a
`TransactionOptions` and an `AccessTrackingOptions` in either order gives the
same value for every parameter name, the names being `transaction_id`, `ping`,
`ping_ancestor_transactions`, `suppress_access_tracking` and
`suppress_modification_tracking`; flattening supplied groups of distinct kinds
in any order gives the same mapping; two options structs that embed the same
members in different orders give the same mapping; and on every name of
`NodeExistsOptions` the structs `NodeExistsOptions` and `ListNodeOptions`,
which embed their common groups in different orders, agree. -/
theorem composition_order_independent :
    (∀ (t : TransactionOptions) (a : AccessTrackingOptions),
      (flatten [.transaction t, .accessTracking a]).map Prod.fst =
        ["transaction_id", "ping", "ping_ancestor_transactions",
         "suppress_access_tracking", "suppress_modification_tracking"] ∧
      ∀ n : String, (flatten [.transaction t, .accessTracking a]).lookup n =
        (flatten [.accessTracking a, .transaction t]).lookup n) ∧
    (∀ gs gs₂ : List GroupValue, gs.Perm gs₂ → (gs.map GroupValue.group).Nodup →
      ∀ n : String, (flatten gs).lookup n = (flatten gs₂).lookup n) ∧
    (∀ d d₂ : OptionsDecl, d.members.Perm d₂.members → d.names.Nodup →
      ∀ (o : OptionsValue) (n : String),
        (writeOptions d (some o)).lookup n = (writeOptions d₂ (some o)).lookup n) ∧
    (∀ (o : OptionsValue) (n : String), n ∈ NodeExistsOptions.names →
      (writeOptions NodeExistsOptions (some o)).lookup n =
        (writeOptions ListNodeOptions (some o)).lookup n) := by
  refine ⟨fun t a => ⟨rfl, fun n => ?_⟩, fun gs gs₂ hp nd n => lookup_flatten_perm hp nd n,
    fun d d₂ hp nd o n => lookup_writeOptions_perm hp nd o n, fun o n hn => ?_⟩
  · have nd : [OptionGroup.Transaction, OptionGroup.AccessTracking].Nodup := by decide
    exact lookup_flatten_perm
      (List.Perm.swap (GroupValue.accessTracking a) (GroupValue.transaction t) []) nd n
  · obtain ⟨m, hm, hnm⟩ := List.mem_flatMap.mp hn
    have hall : ∀ x ∈ NodeExistsOptions.members, x ∈ ListNodeOptions.members := by decide
    have hm₂ : m ∈ ListNodeOptions.members := hall m hm
    rw [lookup_writeOptions_of_mem (by decide) o hm hnm,
      lookup_writeOptions_of_mem (by decide) o hm₂ hnm]

theorem composition_order_independent_witness :
    ((flatten [.mutating ⟨7, true⟩, .transaction ⟨1, true, false⟩,
        .masterRead ⟨"cache"⟩]).lookup "ping" =
      (flatten [.masterRead ⟨"cache"⟩, .mutating ⟨7, true⟩,
        .transaction ⟨1, true, false⟩]).lookup "ping") ∧
    ((writeOptions GetNodeOptions (some GetNodeOptions.zero)).lookup "read_from" =
      (writeOptions ListNodeOptions (some GetNodeOptions.zero)).lookup "read_from") ∧
    ((writeOptions NodeExistsOptions (some NodeExistsOptions.zero)).lookup "ping" =
      (writeOptions ListNodeOptions (some NodeExistsOptions.zero)).lookup "ping") :=
  ⟨composition_order_independent.2.1 _ _ (by decide) (by decide) "ping",
   composition_order_independent.2.2.1 GetNodeOptions ListNodeOptions (by decide) (by decide)
     GetNodeOptions.zero "read_from",
   composition_order_independent.2.2.2 NodeExistsOptions.zero "ping" (by decide)⟩

end yt

namespace yt

/-- With distinct keys, searching for the key of an element finds it. -/
theorem find?_key_eq_some {α β : Type} [DecidableEq β] (key : α → β) {l : List α}
    (nd : (l.map key).Nodup) {x : α} (hx : x ∈ l) :
    l.find? (fun y => key y == key x) = some x := by
  cases hf : l.find? (fun y => key y == key x) with
  | none =>
    have hnone := List.find?_eq_none.mp hf x hx
    simp at hnone
  | some y =>
    have hy : key y = key x := by simpa using List.find?_some hf
    rw [List.inj_on_of_nodup_map nd (List.mem_of_find?_eq_some hf) hx hy]

/-- The names of an options struct are the names of its tagged fields. -/
theorem names_eq_map_allFields (d : OptionsDecl) :
    d.names = d.allFields.map FieldDecl.http := by
  simp only [OptionsDecl.names, OptionsDecl.allFields, List.map_flatMap]
  congr 1
  funext m
  cases m <;> rfl

/-- The own fields of an options struct are among its members. -/
theorem mem_ownFields {d : OptionsDecl} {f : FieldDecl} (h : Member.field f ∈ d.members) :
    f ∈ d.ownFields :=
  List.mem_filterMap.mpr ⟨Member.field f, h, rfl⟩

/-- The embedded groups of an options struct are among its members. -/
theorem embed_mem_of_mem_groups {d : OptionsDecl} {g : OptionGroup} (h : g ∈ d.groups) :
    Member.embed g ∈ d.members := by
  obtain ⟨m, hm, hg⟩ := List.mem_filterMap.mp h
  cases m with
  | field f => simp at hg
  | embed g₂ =>
    simp only [Option.some.injEq] at hg
    exact hg ▸ hm
  | plain s => simp at hg

/-- The zero value of an options struct holds the zero value of the type of
each own field. -/
theorem zero_own_eq {d : OptionsDecl} (nd : (d.ownFields.map FieldDecl.name).Nodup)
    {f : FieldDecl} (hf : f ∈ d.ownFields) : d.zero.own f.name = f.typ.zero := by
  simp only [OptionsDecl.zero]
  rw [find?_key_eq_some FieldDecl.name nd hf]

/-- The default of the parameter of a tagged field is the zero value of the
type of the field. -/
theorem defaultOf_eq {d : OptionsDecl} (nd : d.names.Nodup) {f : FieldDecl}
    (hf : f ∈ d.allFields) : d.defaultOf f.http = f.typ.zero := by
  rw [names_eq_map_allFields] at nd
  simp only [OptionsDecl.defaultOf]
  rw [find?_key_eq_some FieldDecl.http nd hf]

/-- Every parameter the zero value of an options struct contributes carries
the default of that parameter. -/
theorem writeOptions_zero_default {d : OptionsDecl} (nd : d.names.Nodup)
    (ndOwn : (d.ownFields.map FieldDecl.name).Nodup) {n : String} {v : Value}
    (h : (n, v) ∈ writeOptions d (some d.zero)) : v = d.defaultOf n := by
  obtain ⟨m, hm, hmem⟩ := List.mem_flatMap.mp h
  cases m with
  | field f =>
    simp only [writeMember, writeField] at hmem
    split at hmem
    · simp at hmem
    · simp only [List.mem_singleton, Prod.mk.injEq] at hmem
      obtain ⟨rfl, rfl⟩ := hmem
      rw [zero_own_eq ndOwn (mem_ownFields hm)]
      exact (defaultOf_eq nd (List.mem_flatMap.mpr ⟨Member.field f, hm, by simp [Member.fields]⟩)).symm
  | embed g =>
    have hnone : d.zero.group g = none := by cases g <;> rfl
    simp [writeMember, hnone] at hmem
  | plain s => simp [writeMember] at hmem

/-- The lookup of a name among the arguments of the required parameters. -/
theorem lookup_params_none {ps : List String} {args : String → Value} {n : String}
    (h : n ∉ ps) : (ps.map fun p => (p, args p)).lookup n = none := by
  apply lookup_eq_none_of_not_mem
  simpa [List.map_map, Function.comp_def] using h

set_option maxRecDepth 100000 in
/-- The options struct of every operation declares pairwise distinct parameter
names and pairwise distinct Go names for its own fields. -/
theorem allOperations_options_nodup :
    ∀ op ∈ allOperations,
      op.options.names.Nodup ∧ (op.options.ownFields.map FieldDecl.name).Nodup := by
  decide

/-- C7: for every operation, passing nil as the options argument and passing
a pointer to the zero value of its options struct give every parameter the
same effective value; and when an options value leaves an embedded group
absent (nil pointer), every parameter of that group that is not a required
parameter of the operation has its default value. -/
theorem nil_options_eq_zero_options (op : Operation) (hop : op ∈ allOperations)
    (args : String → Value) :
    (∀ n : String, effective op args none n = effective op args (some op.options.zero) n) ∧
    (∀ (o : OptionsValue) (g : OptionGroup), g ∈ op.options.groups → o.group g = none →
      ∀ n ∈ g.names, n ∉ op.params →
        effective op args (some o) n = op.options.defaultOf n) := by
  obtain ⟨nd, ndOwn⟩ := allOperations_options_nodup op hop
  constructor
  · intro n
    simp only [effective, request, List.lookup_append]
    cases hreq : (op.params.map fun p => (p, args p)).lookup n with
    | some v => rfl
    | none =>
      cases hopt : (writeOptions op.options (some op.options.zero)).lookup n with
      | none => rfl
      | some v =>
        have hkeys := (keys_writeOptions_sublist op.options op.options.zero).nodup nd
        have hmem := (lookup_eq_some_iff_mem hkeys n v).mp hopt
        rw [writeOptions_zero_default nd ndOwn hmem]
        rfl
  · intro o g hg habs n hn hreq
    simp only [effective, request, List.lookup_append, lookup_params_none hreq]
    rw [lookup_writeOptions_of_mem nd o (embed_mem_of_mem_groups hg) hn]
    simp [writeMember, habs]

theorem nil_options_eq_zero_options_witness :
    effective SetNode (fun _ => Value.str "//foo/bar/@zog") none "recursive" =
      effective SetNode (fun _ => Value.str "//foo/bar/@zog") (some SetNodeOptions.zero)
        "recursive" ∧
    effective GetNode (fun _ => Value.str "//foo") (some GetNodeOptions.zero) "read_from" =
      GetNodeOptions.defaultOf "read_from" :=
  ⟨(nil_options_eq_zero_options SetNode (by decide) _).1 "recursive",
   (nil_options_eq_zero_options GetNode (by decide) _).2 GetNodeOptions.zero .MasterRead
     (by decide) rfl "read_from" (by decide) (by decide)⟩

end yt

/-! # Properties of the Mutation Retry Coordinator -/

namespace yt

/-- The `j`-th attempt made from attempt number `k` on carries the id of the
call and the retry flag of attempt number `k + j`. -/
theorem runAttempts_getElem? (responses : Nat → Outcome) (id : MutationID) (left k j : Nat)
    (a : Attempt) (h : (runAttempts responses id left k)[j]? = some a) :
    a.sent = ⟨id, decide (k + j ≠ 0)⟩ := by
  induction left generalizing k j with
  | zero => simp [runAttempts] at h
  | succ left ih =>
    rw [runAttempts] at h
    cases j with
    | zero =>
      simp only [List.getElem?_cons_zero, Option.some.injEq] at h
      rw [← h]
      rfl
    | succ j =>
      rw [List.getElem?_cons_succ] at h
      split at h
      · have hsent := ih (k + 1) j h
        rw [hsent]
        simp only [MutatingOptions.mk.injEq, true_and, decide_eq_decide]
        omega
      · simp at h

/-- Every attempt of a call carries the id of the call. -/
theorem runAttempts_mem_id (responses : Nat → Outcome) (id : MutationID) (left k : Nat)
    (a : Attempt) (h : a ∈ runAttempts responses id left k) : a.sent.MutationID = id := by
  obtain ⟨j, hj⟩ := List.getElem?_of_mem h
  rw [runAttempts_getElem? responses id left k j a hj]

/-- The ids carried by a sequence of calls are none of the ids issued before. -/
theorem runCalls_fresh (src : IDSource) (maxAttempts : Nat) (issued : List MutationID)
    (calls : List (Nat → Outcome)) :
    ∀ t ∈ runCalls src maxAttempts issued calls, ∀ a ∈ t, a.sent.MutationID ∉ issued := by
  induction calls generalizing issued with
  | nil => simp [runCalls]
  | cons r rest ih =>
    intro t ht a ha
    rw [runCalls, List.mem_cons] at ht
    rcases ht with rfl | ht
    · rw [runAttempts_mem_id _ _ _ _ a ha]
      exact src.fresh issued
    · intro hmem
      exact ih _ t ht a ha (List.mem_cons_of_mem _ hmem)

/-- Two different calls of a sequence carry different ids. -/
theorem runCalls_pairwise (src : IDSource) (maxAttempts : Nat) (issued : List MutationID)
    (calls : List (Nat → Outcome)) :
    List.Pairwise (fun t u => ∀ a ∈ t, ∀ b ∈ u, a.sent.MutationID ≠ b.sent.MutationID)
      (runCalls src maxAttempts issued calls) := by
  induction calls generalizing issued with
  | nil => simp [runCalls]
  | cons r rest ih =>
    rw [runCalls, List.pairwise_cons]
    refine ⟨fun u hu a ha b hb heq => ?_, ih _⟩
    have hfresh := runCalls_fresh src maxAttempts _ rest u hu b hb
    rw [← heq, runAttempts_mem_id _ _ _ _ a ha] at hfresh
    exact hfresh (List.mem_cons_self _ _)

/-- A sequence of calls yields one list of attempts per call. -/
theorem runCalls_length (src : IDSource) (maxAttempts : Nat) (issued : List MutationID)
    (calls : List (Nat → Outcome)) :
    (runCalls src maxAttempts issued calls).length = calls.length := by
  induction calls generalizing issued with
  | nil => rfl
  | cons r rest ih => simp [runCalls, ih]

/-- The attempts of every call of a sequence come from one id. -/
theorem runCalls_attempts (src : IDSource) (maxAttempts : Nat) (issued : List MutationID)
    (calls : List (Nat → Outcome)) :
    ∀ t ∈ runCalls src maxAttempts issued calls,
      ∃ id responses, t = runAttempts responses id maxAttempts 0 := by
  induction calls generalizing issued with
  | nil => simp [runCalls]
  | cons r rest ih =>
    intro t ht
    rw [runCalls, List.mem_cons] at ht
    rcases ht with rfl | ht
    · exact ⟨_, _, rfl⟩
    · exact ih _ t ht

/-- C4: in a sequence of logical mutating calls, each retried on transient
errors, every attempt of a call carries the same `mutation_id` as its first
attempt, the `retry` flag is false on the first attempt and true on every later
attempt, and two distinct calls never carry the same `mutation_id`. -/
theorem mutation_id_per_logical_call (src : IDSource) (maxAttempts : Nat)
    (calls : List (Nat → Outcome)) :
    (runCalls src maxAttempts [] calls).length = calls.length ∧
    (∀ (i k : Nat) (t : List Attempt) (a : Attempt),
      (runCalls src maxAttempts [] calls)[i]? = some t → t[k]? = some a →
        a.sent.Retry = decide (k ≠ 0) ∧
        ∀ b : Attempt, t[0]? = some b → a.sent.MutationID = b.sent.MutationID) ∧
    (∀ (i j : Nat) (t u : List Attempt) (a b : Attempt), i ≠ j →
      (runCalls src maxAttempts [] calls)[i]? = some t →
      (runCalls src maxAttempts [] calls)[j]? = some u →
      a ∈ t → b ∈ u → a.sent.MutationID ≠ b.sent.MutationID) := by
  refine ⟨runCalls_length src maxAttempts [] calls, ?_, ?_⟩
  · intro i k t a ht ha
    obtain ⟨id, responses, rfl⟩ :=
      runCalls_attempts src maxAttempts [] calls t (List.getElem?_mem ht)
    have hsent := runAttempts_getElem? responses id maxAttempts 0 k a ha
    refine ⟨?_, fun b hb => ?_⟩
    · rw [hsent]
      simp
    · rw [hsent, runAttempts_getElem? responses id maxAttempts 0 0 b hb]
  · intro i j t u a b hij ht hu ha hb
    have hpw := runCalls_pairwise src maxAttempts [] calls
    rw [List.pairwise_iff_getElem] at hpw
    obtain ⟨hi, rfl⟩ := List.getElem?_eq_some_iff.mp ht
    obtain ⟨hj, rfl⟩ := List.getElem?_eq_some_iff.mp hu
    rcases Nat.lt_or_gt_of_ne hij with hlt | hgt
    · exact hpw i j hi hj hlt a ha b hb
    · exact fun heq => hpw j i hj hi hgt b hb a ha heq.symm

theorem mutation_id_per_logical_call_witness :
    (⟨⟨1, true⟩, .ok⟩ : Attempt).sent.Retry = decide (2 ≠ 0) ∧
    (⟨⟨1, true⟩, .ok⟩ : Attempt).sent.MutationID ≠
      (⟨⟨2, false⟩, .error .Permanent⟩ : Attempt).sent.MutationID :=
  ⟨((mutation_id_per_logical_call counterSource 5
      [fun k => if k < 2 then .error .Transient else .ok, fun _ => .error .Permanent]).2.1
      0 2
      [⟨⟨1, false⟩, .error .Transient⟩, ⟨⟨1, true⟩, .error .Transient⟩, ⟨⟨1, true⟩, .ok⟩]
      ⟨⟨1, true⟩, .ok⟩ (by decide) (by decide)).1,
   (mutation_id_per_logical_call counterSource 5
      [fun k => if k < 2 then .error .Transient else .ok, fun _ => .error .Permanent]).2.2
      0 1
      [⟨⟨1, false⟩, .error .Transient⟩, ⟨⟨1, true⟩, .error .Transient⟩, ⟨⟨1, true⟩, .ok⟩]
      [⟨⟨2, false⟩, .error .Permanent⟩]
      ⟨⟨1, true⟩, .ok⟩ ⟨⟨2, false⟩, .error .Permanent⟩ (by decide) (by decide)
      (by decide) (by decide) (by decide)⟩

end yt

namespace yt

/-- As long as the answers are transient errors and attempts are left, one
attempt follows another: the number of attempts made from attempt `k` on, when
every answer is a transient error, is the number of attempts left. -/
theorem runAttempts_length_of_transient (responses : Nat → Outcome) (id : MutationID)
    (h : ∀ k, responses k = .error .Transient) (left k : Nat) :
    (runAttempts responses id left k).length = left := by
  induction left generalizing k with
  | zero => rfl
  | succ left ih => simp [runAttempts, h k, ih]

/-- The attempts of a call never outnumber the attempts allowed. -/
theorem runAttempts_length_le (responses : Nat → Outcome) (id : MutationID) (left k : Nat) :
    (runAttempts responses id left k).length ≤ left := by
  induction left generalizing k with
  | zero => simp [runAttempts]
  | succ left ih =>
    rw [runAttempts]
    split
    · simpa using ih (k + 1)
    · simp

/-- Every attempt records the answer of the dispatcher to it. -/
theorem runAttempts_outcome (responses : Nat → Outcome) (id : MutationID) (left k j : Nat)
    (a : Attempt) (h : (runAttempts responses id left k)[j]? = some a) :
    a.outcome = responses (k + j) := by
  induction left generalizing k j with
  | zero => simp [runAttempts] at h
  | succ left ih =>
    rw [runAttempts] at h
    cases j with
    | zero =>
      simp only [List.getElem?_cons_zero, Option.some.injEq] at h
      rw [← h]
      rfl
    | succ j =>
      rw [List.getElem?_cons_succ] at h
      split at h
      · rw [ih (k + 1) j h]
        congr 1
        omega
      · simp at h

/-- C14: with the default bound of 5 a call never makes more than 5 attempts;
a call whose every attempt fails with a transient error is attempted 5 times
and then surfaces the error of the last attempt; a call whose first attempt
fails with a permanent error is not retried and surfaces that error; and a
permanent error on any attempt ends the call with that error. -/
theorem default_retry_policy (id : MutationID) (responses : Nat → Outcome) :
    (runAttempts responses id defaultMaxAttempts 0).length ≤ 5 ∧
    ((∀ k, responses k = .error .Transient) →
      (runAttempts responses id defaultMaxAttempts 0).length = 5 ∧
      surfaced (runAttempts responses id defaultMaxAttempts 0) = some (responses 4) ∧
      surfaced (runAttempts responses id defaultMaxAttempts 0) =
        some (.error .Transient)) ∧
    (responses 0 = .error .Permanent →
      runAttempts responses id defaultMaxAttempts 0 = [⟨⟨id, false⟩, .error .Permanent⟩] ∧
      surfaced (runAttempts responses id defaultMaxAttempts 0) =
        some (.error .Permanent)) ∧
    (∀ k, k < 5 → (∀ j, j < k → responses j = .error .Transient) →
      responses k = .error .Permanent →
      (runAttempts responses id defaultMaxAttempts 0).length = k + 1 ∧
      surfaced (runAttempts responses id defaultMaxAttempts 0) =
        some (.error .Permanent)) := by
  refine ⟨runAttempts_length_le responses id 5 0, fun h => ?_, fun h => ?_, fun k hk ht hp => ?_⟩
  · refine ⟨runAttempts_length_of_transient responses id h 5 0, ?_, ?_⟩
    · simp [surfaced, defaultMaxAttempts, runAttempts, h]
    · simp [surfaced, defaultMaxAttempts, runAttempts, h]
  · simp [surfaced, defaultMaxAttempts, runAttempts, h]
  · interval_cases k
    · simp [surfaced, defaultMaxAttempts, runAttempts, hp]
    · simp [surfaced, defaultMaxAttempts, runAttempts, hp, ht 0 (by omega)]
    · simp [surfaced, defaultMaxAttempts, runAttempts, hp, ht 0 (by omega), ht 1 (by omega)]
    · simp [surfaced, defaultMaxAttempts, runAttempts, hp, ht 0 (by omega), ht 1 (by omega),
        ht 2 (by omega)]
    · simp [surfaced, defaultMaxAttempts, runAttempts, hp, ht 0 (by omega), ht 1 (by omega),
        ht 2 (by omega), ht 3 (by omega)]

theorem default_retry_policy_witness :
    ((runAttempts (fun _ => Outcome.error .Transient) 9 defaultMaxAttempts 0).length = 5 ∧
      surfaced (runAttempts (fun _ => Outcome.error .Transient) 9 defaultMaxAttempts 0) =
        some (Outcome.error .Transient) ∧
      surfaced (runAttempts (fun _ => Outcome.error .Transient) 9 defaultMaxAttempts 0) =
        some (.error .Transient)) ∧
    (runAttempts (fun _ => Outcome.error .Permanent) 9 defaultMaxAttempts 0 =
        [⟨⟨9, false⟩, .error .Permanent⟩] ∧
      surfaced (runAttempts (fun _ => Outcome.error .Permanent) 9 defaultMaxAttempts 0) =
        some (.error .Permanent)) :=
  ⟨(default_retry_policy 9 (fun _ => .error .Transient)).2.1 (fun _ => rfl),
   (default_retry_policy 9 (fun _ => .error .Permanent)).2.2.1 rfl⟩

end yt

/-! # Properties of the remote errors -/

namespace misc

/-- A nested cause is found by walking down with the getters. -/
theorem causeAt_of_isCause {α : Type} {root e : TError α} (h : IsCause root e) :
    ∃ path : List Nat, path ≠ [] ∧ causeAt (some root) path = some e := by
  induction h with
  | @inner root e hmem =>
    obtain ⟨i, hi⟩ := List.getElem?_of_mem hmem
    refine ⟨[i], by simp, ?_⟩
    simp [causeAt, GetInnerErrors, hi]
  | @deeper root mid e hmem _ ih =>
    obtain ⟨i, hi⟩ := List.getElem?_of_mem hmem
    obtain ⟨path, _, hpath⟩ := ih
    refine ⟨i :: path, by simp, ?_⟩
    simp [causeAt, GetInnerErrors, hi, hpath]

/-- C11: a remote error is a tree that the getters preserve. For every non-nil
`TError` whose `Code` and `Message` are set, `GetCode` and `GetMessage` return
the stored values, `GetAttributes` the stored attributes and `GetInnerErrors`
the stored sequence of inner errors, unchanged; and every nested cause, at any
depth, is reached from the error by a non-empty walk through `GetInnerErrors`. -/
theorem getters_preserve_error_tree {α : Type} (c : Int) (m : String) (a : Option α)
    (inner : List (Option (TError α))) :
    GetCode (some (TError.mk (some c) (some m) a inner)) = c ∧
    GetMessage (some (TError.mk (some c) (some m) a inner)) = m ∧
    GetAttributes (some (TError.mk (some c) (some m) a inner)) = a ∧
    GetInnerErrors (some (TError.mk (some c) (some m) a inner)) = inner ∧
    (∀ e : TError α, IsCause (TError.mk (some c) (some m) a inner) e →
      ∃ path : List Nat, path ≠ [] ∧
        causeAt (some (TError.mk (some c) (some m) a inner)) path = some e) :=
  ⟨rfl, rfl, rfl, rfl, fun _ h => causeAt_of_isCause h⟩

theorem getters_preserve_error_tree_witness :
    ∃ path : List Nat, path ≠ [] ∧
      causeAt (some (TError.mk (some 1) (some "outer") (none : Option Unit)
        [some (TError.mk (some 2) (some "middle") none
          [none, some (TError.mk (some 3) (some "cause") none [])])])) path =
        some (TError.mk (some 3) (some "cause") none []) :=
  (getters_preserve_error_tree 1 "outer" (none : Option Unit)
    [some (TError.mk (some 2) (some "middle") none
      [none, some (TError.mk (some 3) (some "cause") none [])])]).2.2.2.2 _
    (IsCause.deeper (List.mem_singleton.mpr rfl)
      (IsCause.inner (List.mem_cons_of_mem _ (List.mem_singleton.mpr rfl))))

end misc

/-! # Properties of the Transaction Tree Manager -/

namespace yt

/-- No event moves a transaction out of a terminal state. -/
theorem step_of_isTerminal (k : Bool) (t : TxHandle) (e : TxEvent)
    (h : t.state.isTerminal = true) : (t.step k e).1 = t := by
  obtain ⟨s, n⟩ := t
  cases s <;> cases e <;> simp_all [TxState.isTerminal, TxHandle.step, TxHandle.Commit,
    TxHandle.Abort, TxHandle.Cancel, TxHandle.PingExpired]

/-- No run moves a transaction out of a terminal state. -/
theorem run_of_isTerminal (k : Bool) (t : TxHandle) (events : List TxEvent)
    (h : t.state.isTerminal = true) : t.run k events = t := by
  induction events with
  | nil => rfl
  | cons e rest ih =>
    have hstep : t.run k (e :: rest) = ((t.step k e).1).run k rest := rfl
    rw [hstep, step_of_isTerminal k t e h, ih]

/-- A step closes the channel of `Finished` exactly when it moves the
transaction from Active to a terminal state. -/
theorem step_finishedCloses (k : Bool) (t : TxHandle) (e : TxEvent) :
    (t.step k e).1.finishedCloses =
      t.finishedCloses +
        (if t.state = .Active ∧ (t.step k e).1.state.isTerminal = true then 1 else 0) := by
  obtain ⟨s, n⟩ := t
  cases s <;> cases e <;> (try rename_i r; cases r) <;> (try cases k) <;>
    simp [TxState.isTerminal, TxHandle.step, TxHandle.Commit, TxHandle.Abort,
      TxHandle.Cancel, TxHandle.PingExpired, TxHandle.finish]

/-- The channel of `Finished` is closed once if the transaction is in a
terminal state and not at all if it is Active: the invariant of a step. -/
theorem step_closes_invariant (k : Bool) (t : TxHandle) (e : TxEvent)
    (h : t.finishedCloses = if t.state.isTerminal = true then 1 else 0) :
    (t.step k e).1.finishedCloses =
      if (t.step k e).1.state.isTerminal = true then 1 else 0 := by
  obtain ⟨s, n⟩ := t
  cases s
  · simp only [TxState.isTerminal, Bool.false_eq_true, if_false] at h
    subst h
    cases e <;> (try rename_i r; cases r) <;> (try cases k) <;>
      simp [TxState.isTerminal, TxHandle.step, TxHandle.Commit, TxHandle.Abort,
        TxHandle.Cancel, TxHandle.PingExpired, TxHandle.finish]
  · rw [step_of_isTerminal k ⟨.Committed, n⟩ e rfl]
    exact h
  · rw [step_of_isTerminal k ⟨.Aborted, n⟩ e rfl]
    exact h

/-- In every run from a handle that satisfies it, the invariant holds: one
close if terminal, none if Active. -/
theorem run_closes_invariant (k : Bool) (t : TxHandle) (events : List TxEvent)
    (h : t.finishedCloses = if t.state.isTerminal = true then 1 else 0) :
    (t.run k events).finishedCloses =
      if (t.run k events).state.isTerminal = true then 1 else 0 := by
  induction events generalizing t with
  | nil => exact h
  | cons e rest ih =>
    have hstep : t.run k (e :: rest) = ((t.step k e).1).run k rest := rfl
    rw [hstep]
    exact ih _ (step_closes_invariant k t e h)

/-- C12: a transaction reaches a terminal state exactly once. From Active the
first successful `Commit` moves it to Committed and the first successful
`Abort` to Aborted; no event moves it out of a terminal state, and in every
run the completion signal has fired once if the state is terminal and not at
all if it is Active; a second `Commit` or `Abort`, on a transaction that is
already terminal, returns a StateViolation error and leaves the transaction as
it is. -/
theorem tx_terminal_exactly_once (k : Bool) :
    (∀ t : TxHandle, t.state = .Active →
      t.Commit .success = (⟨.Committed, t.finishedCloses + 1⟩, none) ∧
      t.Abort k .success = (⟨.Aborted, t.finishedCloses + 1⟩, none)) ∧
    (∀ (t : TxHandle) (events : List TxEvent), t.state.isTerminal = true →
      t.run k events = t) ∧
    (∀ events : List TxEvent,
      (TxHandle.start.run k events).finishedCloses =
        if (TxHandle.start.run k events).state.isTerminal = true then 1 else 0) ∧
    (∀ (t : TxHandle) (r : RemoteAnswer), t.state.isTerminal = true →
      t.Commit r = (t, some .StateViolation)) ∧
    (∀ (t : TxHandle) (r : RemoteAnswer), t.state.isTerminal = true →
      t.Abort k r = (t, some .StateViolation)) := by
  refine ⟨?_, fun t events h => run_of_isTerminal k t events h,
    fun events => run_closes_invariant k _ events rfl, ?_, ?_⟩
  · rintro ⟨s, n⟩ h
    simp only at h
    subst h
    exact ⟨rfl, rfl⟩
  · rintro ⟨s, n⟩ r h
    cases s <;> simp_all [TxState.isTerminal, TxHandle.Commit]
  · rintro ⟨s, n⟩ r h
    cases s <;> simp_all [TxState.isTerminal, TxHandle.Abort]

theorem tx_terminal_exactly_once_witness :
    (TxHandle.start.Commit .success = (⟨.Committed, 1⟩, none) ∧
      TxHandle.start.Abort false .success = (⟨.Aborted, 1⟩, none)) ∧
    (⟨.Committed, 1⟩ : TxHandle).run false [.abort .success, .cancel .failure, .commit .success] =
      ⟨.Committed, 1⟩ ∧
    (⟨.Aborted, 1⟩ : TxHandle).Commit .success = (⟨.Aborted, 1⟩, some .StateViolation) ∧
    (⟨.Committed, 1⟩ : TxHandle).Abort false .success =
      (⟨.Committed, 1⟩, some .StateViolation) ∧
    (TxHandle.start.Abort false .success).1.Abort false .success =
      (⟨.Aborted, 1⟩, some .StateViolation) :=
  ⟨(tx_terminal_exactly_once false).1 TxHandle.start rfl,
   (tx_terminal_exactly_once false).2.1 ⟨.Committed, 1⟩ _ rfl,
   (tx_terminal_exactly_once false).2.2.2.1 ⟨.Aborted, 1⟩ .success rfl,
   (tx_terminal_exactly_once false).2.2.2.2 ⟨.Committed, 1⟩ .success rfl,
   (tx_terminal_exactly_once false).2.2.2.2 (TxHandle.start.Abort false .success).1 .success rfl⟩

/-- C13, as stated, fails: cancelling the ctx of a transaction that was
committed does not drive it to Aborted, it stays Committed. -/
theorem cancel_of_committed_stays_committed :
    (TxHandle.start.run true [.commit .success, .cancel .success]).state = .Committed ∧
    (TxHandle.start.run true [.commit .success, .cancel .success]).state ≠ .Aborted := by
  decide

/-- C13, amended: cancelling the ctx passed to `BeginTx` drives a transaction
that is still Active to Aborted, whatever the remote side answers to the
abort, and leaves a transaction that has finished as it is; and the channel
returned by `Finished` is closed exactly once, by the step that moves the
transaction from Active to Committed or Aborted: after every run it has been
closed once if the transaction has finished and not at all otherwise. -/
theorem cancel_aborts_active_tx (k : Bool) :
    (∀ (t : TxHandle) (r : RemoteAnswer), t.state = .Active →
      (t.Cancel r).state = .Aborted ∧ (t.Cancel r).finishedCloses = t.finishedCloses + 1) ∧
    (∀ (t : TxHandle) (r : RemoteAnswer), t.state.isTerminal = true → t.Cancel r = t) ∧
    (∀ (t : TxHandle) (e : TxEvent),
      (t.step k e).1.finishedCloses =
        t.finishedCloses +
          (if t.state = .Active ∧ (t.step k e).1.state.isTerminal = true then 1 else 0)) ∧
    (∀ events : List TxEvent,
      ((TxHandle.start.run k events).state.isTerminal = true →
        (TxHandle.start.run k events).finishedCloses = 1) ∧
      ((TxHandle.start.run k events).state = .Active →
        (TxHandle.start.run k events).finishedCloses = 0)) := by
  refine ⟨?_, ?_, fun t e => step_finishedCloses k t e, fun events => ?_⟩
  · rintro ⟨s, n⟩ r h
    simp only at h
    subst h
    exact ⟨rfl, rfl⟩
  · rintro ⟨s, n⟩ r h
    cases s <;> simp_all [TxState.isTerminal, TxHandle.Cancel]
  · have hinv := run_closes_invariant k TxHandle.start events rfl
    constructor
    · intro hterm
      rw [hinv, if_pos hterm]
    · intro hact
      rw [hinv, hact]
      rfl

theorem cancel_aborts_active_tx_witness :
    ((TxHandle.start.Cancel .failure).state = .Aborted ∧
      (TxHandle.start.Cancel .failure).finishedCloses = TxHandle.start.finishedCloses + 1) ∧
    (⟨.Committed, 1⟩ : TxHandle).Cancel .success = ⟨.Committed, 1⟩ ∧
    (TxHandle.start.run true [.commit .failure, .cancel .failure, .abort .success]).finishedCloses
      = 1 :=
  ⟨(cancel_aborts_active_tx true).1 TxHandle.start .failure rfl,
   (cancel_aborts_active_tx true).2.1 ⟨.Committed, 1⟩ .success rfl,
   ((cancel_aborts_active_tx true).2.2.2
      [.commit .failure, .cancel .failure, .abort .success]).1 (by decide)⟩

end yt

/-! # Properties of the job file system configuration -/

namespace jobfs

/-- The inner loop of `Validate` appends, in order, one error per directory
that passes the test. -/
theorem foldl_inner (p : String → Bool) (f : String → ValidateError) (dirs : List String)
    (init : List ValidateError) :
    dirs.foldl (fun errs dir => if p dir then errs ++ [f dir] else errs) init =
      init ++ (dirs.filter p).map f := by
  induction dirs generalizing init with
  | nil => simp
  | cons d rest ih =>
    rw [List.foldl_cons, ih]
    by_cases hp : p d = true
    · simp [hp, List.filter_cons]
    · simp [hp, List.filter_cons]

/-- The nested loops of `Validate` append, in order, one error per pair that
passes the test. -/
theorem foldl_outer (clean : String → String) (mk : String → String → ValidateError)
    (objs dirs : List String) (init : List ValidateError) :
    objs.foldl (fun errs obj =>
      dirs.foldl (fun errs dir =>
        if isInside clean obj dir then errs ++ [mk obj dir] else errs) errs) init =
      init ++ (insidePairs clean objs dirs).map (fun p => mk p.1 p.2) := by
  induction objs generalizing init with
  | nil => simp [insidePairs]
  | cons o rest ih =>
    rw [List.foldl_cons, foldl_inner (fun dir => isInside clean o dir) (mk o), ih]
    simp [insidePairs, List.flatMap_cons, List.map_append, List.map_map, Function.comp_def]

/-- The method `Validate` returns the list of errors of the claim. -/
theorem validate_eq_validateSpec (clean : String → String) (c : Config) :
    Validate clean c = validateSpec clean c := by
  simp only [Validate, validateSpec]
  rw [foldl_outer clean ValidateError.fileInsideTarDir,
    foldl_outer clean ValidateError.tarDirInsideTarDir]
  by_cases h : c.CoredumpDir = "" <;> simp [h]

/-- The pairs that pass the containment test are the pairs of an object and a
directory of the lists for which the test holds. -/
theorem mem_insidePairs (clean : String → String) (objs dirs : List String)
    (p : String × String) :
    p ∈ insidePairs clean objs dirs ↔
      p.1 ∈ objs ∧ p.2 ∈ dirs ∧ isInside clean p.1 p.2 = true := by
  obtain ⟨a, b⟩ := p
  simp only [insidePairs, List.mem_flatMap, List.mem_map, List.mem_filter, Prod.mk.injEq]
  constructor
  · rintro ⟨o, ho, d, ⟨hd, hin⟩, rfl, rfl⟩
    exact ⟨ho, hd, hin⟩
  · rintro ⟨ho, hd, hin⟩
    exact ⟨a, ho, b, ⟨hd, hin⟩, rfl, rfl⟩

/-- No pair passes the containment test exactly when the test fails for every
object and every directory of the lists. -/
theorem insidePairs_eq_nil (clean : String → String) (objs dirs : List String) :
    insidePairs clean objs dirs = [] ↔
      ∀ obj ∈ objs, ∀ dir ∈ dirs, isInside clean obj dir = false := by
  rw [List.eq_nil_iff_forall_not_mem]
  constructor
  · intro h obj ho dir hd
    cases hin : isInside clean obj dir with
    | false => rfl
    | true =>
      exact absurd ((mem_insidePairs clean objs dirs (obj, dir)).mpr ⟨ho, hd, hin⟩)
        (h (obj, dir))
  · intro h p hp
    obtain ⟨ho, hd, hin⟩ := (mem_insidePairs clean objs dirs p).mp hp
    rw [h p.1 ho p.2 hd] at hin
    cases hin

/-- C15: `Validate` returns exactly this list of errors, in this order: the
error of an empty `coredump_dir` if and only if `CoredumpDir` is empty; then
one error for each pair of a file and a tar dir, in the order of the loops,
for which `isInside` holds; then one error for each pair of tar dirs for which
`isInside` holds. It returns no error if and only if `CoredumpDir` is not empty
and no such pair exists. -/
theorem validate_errors (clean : String → String) (c : Config) :
    Validate clean c =
      (if c.CoredumpDir = "" then [ValidateError.coredumpDirEmpty] else []) ++
        (c.UploadFile.flatMap fun file =>
          (c.UploadTarDir.filter fun tarDir => isInside clean file tarDir).map fun tarDir =>
            ValidateError.fileInsideTarDir file tarDir) ++
        (c.UploadTarDir.flatMap fun outerTarDir =>
          (c.UploadTarDir.filter fun tarDir => isInside clean outerTarDir tarDir).map
            fun tarDir => ValidateError.tarDirInsideTarDir outerTarDir tarDir) ∧
    Validate clean c = validateSpec clean c ∧
    (Validate clean c = [] ↔
      c.CoredumpDir ≠ "" ∧
      (∀ file ∈ c.UploadFile, ∀ tarDir ∈ c.UploadTarDir, isInside clean file tarDir = false) ∧
      (∀ outerTarDir ∈ c.UploadTarDir, ∀ tarDir ∈ c.UploadTarDir,
        isInside clean outerTarDir tarDir = false)) := by
  refine ⟨?_, validate_eq_validateSpec clean c, ?_⟩
  · rw [validate_eq_validateSpec]
    simp [validateSpec, insidePairs, List.map_flatMap, List.map_map, Function.comp_def]
  · rw [validate_eq_validateSpec]
    simp only [validateSpec, List.append_eq_nil, List.map_eq_nil_iff, insidePairs_eq_nil]
    by_cases h : c.CoredumpDir = "" <;> simp [h, and_assoc]

theorem validate_errors_witness :
    Validate Clean ⟨["/a/b/c", "/a/bc"], ["/a/b", "/a"], [], "", "", [], [], "", [], []⟩ =
      validateSpec Clean ⟨["/a/b/c", "/a/bc"], ["/a/b", "/a"], [], "", "", [], [], "", [], []⟩ :=
  (validate_errors Clean
    ⟨["/a/b/c", "/a/bc"], ["/a/b", "/a"], [], "", "", [], [], "", [], []⟩).2.1

end jobfs

namespace jobfs

/-- The containment test in terms of lists of characters: the cleaned object
starts with the cleaned directory followed by a slash. -/
theorem isInside_iff (clean : String → String) (obj dir : String) :
    isInside clean obj dir = true ↔
      ∃ rest : List Char, (clean obj).data = (clean dir).data ++ '/' :: rest := by
  simp only [isInside, HasPrefix, List.isPrefixOf_iff_prefix, String.data_append, Separator]
  constructor
  · rintro ⟨t, ht⟩
    exact ⟨t, by rw [← ht]; simp [String.singleton]⟩
  · rintro ⟨t, ht⟩
    exact ⟨t, by rw [ht]; simp [String.singleton]⟩

/-- Two paths with the same cleaned form are not inside one another. -/
theorem isInside_of_clean_eq (clean : String → String) (obj dir : String)
    (h : clean obj = clean dir) : isInside clean obj dir = false := by
  cases hin : isInside clean obj dir with
  | false => rfl
  | true =>
    obtain ⟨rest, hrest⟩ := (isInside_iff clean obj dir).mp hin
    rw [h] at hrest
    have hlen := congrArg List.length hrest
    simp at hlen

/-- The containment test is transitive. -/
theorem isInside_trans (clean : String → String) (a b c : String)
    (hab : isInside clean a b = true) (hbc : isInside clean b c = true) :
    isInside clean a c = true := by
  obtain ⟨t, ht⟩ := (isInside_iff clean a b).mp hab
  obtain ⟨u, hu⟩ := (isInside_iff clean b c).mp hbc
  refine (isInside_iff clean a c).mpr ⟨u ++ '/' :: t, ?_⟩
  rw [ht, hu]
  simp

/-- C17: the containment test `isInside` is a strict partial order on paths:
it never holds between a path and itself, it is transitive, hence asymmetric.
So the pass of tar dirs against tar dirs never reports a directory as inside
itself or inside a duplicate of itself, and a config with a non-empty
`CoredumpDir`, no upload files and a single tar dir validates with no error. -/
theorem isInside_strict_order (clean : String → String) :
    (∀ p : String, isInside clean p p = false) ∧
    (∀ a b c : String, isInside clean a b = true → isInside clean b c = true →
      isInside clean a c = true) ∧
    (∀ a b : String, isInside clean a b = true → isInside clean b a = false) ∧
    (∀ (c : Config) (d₁ d₂ : String), clean d₁ = clean d₂ →
      ValidateError.tarDirInsideTarDir d₁ d₂ ∉ Validate clean c) ∧
    (∀ (c : Config) (d : String), c.CoredumpDir ≠ "" → c.UploadFile = [] →
      c.UploadTarDir = [d] → Validate clean c = []) := by
  refine ⟨fun p => isInside_of_clean_eq clean p p rfl, isInside_trans clean, ?_, ?_, ?_⟩
  · intro a b hab
    cases hba : isInside clean b a with
    | false => rfl
    | true =>
      have haa := isInside_trans clean a b a hab hba
      rw [isInside_of_clean_eq clean a a rfl] at haa
      cases haa
  · intro c d₁ d₂ hd hmem
    rw [validate_eq_validateSpec] at hmem
    simp only [validateSpec, List.mem_append, List.mem_map] at hmem
    rcases hmem with (hmem | ⟨p, _, hp⟩) | ⟨p, hp, heq⟩
    · split at hmem <;> simp at hmem
    · cases hp
    · simp only [ValidateError.tarDirInsideTarDir.injEq] at heq
      have hin := ((mem_insidePairs clean _ _ p).mp hp).2.2
      rw [heq.1, heq.2, isInside_of_clean_eq clean d₁ d₂ hd] at hin
      cases hin
  · intro c d hcore hfile htar
    rw [validate_eq_validateSpec]
    simp [validateSpec, hcore, hfile, htar, insidePairs,
      isInside_of_clean_eq clean d d rfl]

theorem isInside_strict_order_witness :
    isInside Clean "/a/b/c" "/a" = true ∧
    isInside Clean "/a" "/a/b" = false ∧
    ValidateError.tarDirInsideTarDir "/a/b" "/a/b/" ∉
      Validate Clean ⟨[], ["/a/b", "/a/b/"], [], "", "", [], [], "cores", [], []⟩ ∧
    Validate Clean ⟨[], ["/a/b"], [], "", "", [], [], "cores", [], []⟩ = [] :=
  ⟨(isInside_strict_order Clean).2.1 "/a/b/c" "/a/b" "/a" (by decide) (by decide),
   (isInside_strict_order Clean).2.2.1 "/a/b" "/a" (by decide),
   (isInside_strict_order Clean).2.2.2.1 _ "/a/b" "/a/b/" (by decide),
   (isInside_strict_order Clean).2.2.2.2 _ "/a/b" (by decide) rfl rfl⟩

end jobfs

namespace jobfs

/-- A list is its elements taken at the indices below its length. -/
theorem range_map_getD (l : List String) :
    (List.range l.length).map (fun i => l.getD i "") = l := by
  apply List.ext_getElem
  · simp
  · intro i h₁ h₂
    simp [List.getD_eq_getElem?_getD, List.getElem?_eq_getElem h₂]

/-- Iterating a list is iterating its indices. -/
theorem flatMap_eq_range {β : Type} (l : List String) (G : String → List β) :
    l.flatMap G = (List.range l.length).flatMap (fun i => G (l.getD i "")) := by
  conv_lhs => rw [← range_map_getD l]
  rw [List.flatMap_map]

/-- Selecting from a list is selecting from its indices. -/
theorem filter_map_eq_range {β : Type} (l : List String) (P : String → Bool)
    (F : String → β) :
    (l.filter P).map F =
      ((List.range l.length).filter (fun j => P (l.getD j ""))).map
        (fun j => F (l.getD j "")) := by
  conv_lhs => rw [← range_map_getD l]
  rw [List.filter_map, List.map_map]
  rfl

/-- The pairs that pass the containment test are the elements at the index
pairs that pass it. -/
theorem insidePairs_eq_map_indices (clean : String → String) (objs dirs : List String) :
    insidePairs clean objs dirs =
      (insideIndices clean objs dirs).map (fun p => (objs.getD p.1 "", dirs.getD p.2 "")) := by
  simp only [insidePairs, insideIndices, List.map_flatMap, List.map_map]
  rw [flatMap_eq_range objs]
  congr 1
  funext i
  rw [filter_map_eq_range dirs]
  rfl

/-- The errors of a config are the errors at its error positions. -/
theorem validate_eq_map_indices (clean : String → String) (c : Config) :
    Validate clean c = (validateIndices clean c).map c.errorAt := by
  rw [validate_eq_validateSpec]
  simp only [validateSpec, validateIndices, List.map_append, List.map_map,
    insidePairs_eq_map_indices]
  by_cases h : c.CoredumpDir = "" <;> simp [h, Config.errorAt, Function.comp_def]

/-- The containment test sees its arguments through their cleaned form only. -/
theorem isInside_congr (clean : String → String) {a₁ a₂ b₁ b₂ : String}
    (ha : clean a₁ = clean a₂) (hb : clean b₁ = clean b₂) :
    isInside clean a₁ b₁ = isInside clean a₂ b₂ := by
  simp only [isInside, ha, hb]

/-- Lists with the same cleaned elements have cleaned-equal elements at every
index. -/
theorem clean_getD_eq (clean : String → String) {l₁ l₂ : List String}
    (h : l₁.map clean = l₂.map clean) (i : Nat) :
    clean (l₁.getD i "") = clean (l₂.getD i "") := by
  have h₁ : clean (l₁.getD i "") = (l₁.map clean).getD i (clean "") := by
    simp [List.getD_eq_getElem?_getD, List.getElem?_map]
  have h₂ : clean (l₂.getD i "") = (l₂.map clean).getD i (clean "") := by
    simp [List.getD_eq_getElem?_getD, List.getElem?_map]
  rw [h₁, h₂, h]

/-- The index pairs that pass the containment test depend on the lists through
their cleaned elements only. -/
theorem insideIndices_congr (clean : String → String) {objs₁ objs₂ dirs₁ dirs₂ : List String}
    (hobjs : objs₁.map clean = objs₂.map clean) (hdirs : dirs₁.map clean = dirs₂.map clean) :
    insideIndices clean objs₁ dirs₁ = insideIndices clean objs₂ dirs₂ := by
  have hlo : objs₁.length = objs₂.length := by
    simpa using congrArg List.length hobjs
  have hld : dirs₁.length = dirs₂.length := by
    simpa using congrArg List.length hdirs
  simp only [insideIndices, hlo, hld]
  congr 1
  funext i
  congr 2
  funext j
  exact isInside_congr clean (clean_getD_eq clean hobjs i) (clean_getD_eq clean hdirs j)

/-- C18: `Validate` depends on the paths only through their cleaned form. For
two configs with the same `CoredumpDir` whose `UploadFile` lists and whose
`UploadTarDir` lists have the same length and element-wise equal cleaned
paths, the errors sit at the same positions, the same index pairs in the same
order, each config reporting its own spelling of the paths there, and so both
return the same number of errors. -/
theorem validate_depends_on_clean (clean : String → String) (c₁ c₂ : Config)
    (hcore : c₁.CoredumpDir = c₂.CoredumpDir)
    (hfile : c₁.UploadFile.map clean = c₂.UploadFile.map clean)
    (htar : c₁.UploadTarDir.map clean = c₂.UploadTarDir.map clean) :
    validateIndices clean c₁ = validateIndices clean c₂ ∧
    Validate clean c₁ = (validateIndices clean c₁).map c₁.errorAt ∧
    Validate clean c₂ = (validateIndices clean c₁).map c₂.errorAt ∧
    (Validate clean c₁).length = (Validate clean c₂).length := by
  have hidx : validateIndices clean c₁ = validateIndices clean c₂ := by
    simp only [validateIndices, hcore, insideIndices_congr clean hfile htar,
      insideIndices_congr clean htar htar]
  refine ⟨hidx, validate_eq_map_indices clean c₁, ?_, ?_⟩
  · rw [hidx]
    exact validate_eq_map_indices clean c₂
  · rw [validate_eq_map_indices clean c₁, validate_eq_map_indices clean c₂, hidx]
    simp

theorem validate_depends_on_clean_witness :
    validateIndices Clean ⟨["/a/b/c", "x"], ["/a/b/"], [], "", "", [], [], "", [], []⟩ =
      validateIndices Clean
        ⟨["/a//b/./c", "./x"], ["/a/./b"], [], "", "", [], [], "", [], []⟩ ∧
    (Validate Clean ⟨["/a/b/c", "x"], ["/a/b/"], [], "", "", [], [], "", [], []⟩).length =
      (Validate Clean
        ⟨["/a//b/./c", "./x"], ["/a/./b"], [], "", "", [], [], "", [], []⟩).length :=
  ⟨(validate_depends_on_clean Clean
      ⟨["/a/b/c", "x"], ["/a/b/"], [], "", "", [], [], "", [], []⟩
      ⟨["/a//b/./c", "./x"], ["/a/./b"], [], "", "", [], [], "", [], []⟩
      rfl (by decide) (by decide)).1,
   (validate_depends_on_clean Clean
      ⟨["/a/b/c", "x"], ["/a/b/"], [], "", "", [], [], "", [], []⟩
      ⟨["/a//b/./c", "./x"], ["/a/./b"], [], "", "", [], [], "", [], []⟩
      rfl (by decide) (by decide)).2.2.2⟩

end jobfs

namespace jobfs

set_option maxRecDepth 100000 in
/-- C16 at the inputs where the code departs from it. The file `/a` lies
strictly below the tar dir `/`, and the file `a` strictly below the tar dir `.`,
yet `isInside` does not hold and `Validate` reports nothing: the test looks for
the cleaned directory followed by a slash, which is `//` for the root and `./`
for the current directory. For a directory such as `/a/b` the test agrees with
the claim: `/a/b/c` is reported, the sibling `/a/bc` is not. -/
theorem validate_misses_root_and_current_dir :
    (Clean "/" = "/" ∧ Clean "/a" = "/a" ∧
      liesStrictlyBelow (Clean "/a") (Clean "/") = true ∧
      isInside Clean "/a" "/" = false ∧
      Validate Clean ⟨["/a"], ["/"], [], "", "", [], [], "cores", [], []⟩ = []) ∧
    (Clean "." = "." ∧ Clean "a" = "a" ∧
      liesStrictlyBelow (Clean "a") (Clean ".") = true ∧
      isInside Clean "a" "." = false ∧
      Validate Clean ⟨["a"], ["."], [], "", "", [], [], "cores", [], []⟩ = []) ∧
    (liesStrictlyBelow (Clean "/a/b/c") (Clean "/a/b") = true ∧
      isInside Clean "/a/b/c" "/a/b" = true ∧
      liesStrictlyBelow (Clean "/a/bc") (Clean "/a/b") = false ∧
      isInside Clean "/a/bc" "/a/b" = false ∧
      Validate Clean ⟨["/a/b/c", "/a/bc"], ["/a/b"], [], "", "", [], [], "cores", [], []⟩ =
        [ValidateError.fileInsideTarDir "/a/b/c" "/a/b"]) := by
  decide

end jobfs

/-! # Properties of the operation configuration -/

namespace job

/-- Appending to the same path gives the same result only for the same
name. -/
theorem child_injective (p : ypath.Path) (a b : String)
    (h : ypath.Path.Child p a = ypath.Path.Child p b) : a = b := by
  have hdata := congrArg String.data h
  simp only [ypath.Path.Child, String.data_append, List.append_cancel_left_eq] at hdata
  exact String.ext hdata

/-- C19: all data directories of an operation live under `CypressRoot`. The
methods `TmpDir`, `CacheDir` and `OutputDir` return the children `tmp`, `cache`
and `output` of `CypressRoot`, each the root followed by a slash and a name
without slash; the three are pairwise distinct for every `CypressRoot`; and
none of them depends on any other field of the config. -/
theorem data_dirs_under_cypressRoot {F A : Type} (c : OperationConfig F A) :
    (c.TmpDir = ypath.Path.Child c.CypressRoot "tmp" ∧
      c.CacheDir = ypath.Path.Child c.CypressRoot "cache" ∧
      c.OutputDir = ypath.Path.Child c.CypressRoot "output") ∧
    (c.TmpDir = c.CypressRoot ++ "/" ++ "tmp" ∧ c.CacheDir = c.CypressRoot ++ "/" ++ "cache" ∧
      c.OutputDir = c.CypressRoot ++ "/" ++ "output" ∧
      '/' ∉ "tmp".data ∧ '/' ∉ "cache".data ∧ '/' ∉ "output".data) ∧
    (c.TmpDir ≠ c.CacheDir ∧ c.TmpDir ≠ c.OutputDir ∧ c.CacheDir ≠ c.OutputDir) ∧
    (∀ c₂ : OperationConfig F A, c₂.CypressRoot = c.CypressRoot →
      c₂.TmpDir = c.TmpDir ∧ c₂.CacheDir = c.CacheDir ∧ c₂.OutputDir = c.OutputDir) := by
  refine ⟨⟨rfl, rfl, rfl⟩, ⟨rfl, rfl, rfl, by decide, by decide, by decide⟩, ⟨?_, ?_, ?_⟩, ?_⟩
  · intro h
    exact absurd (child_injective _ _ _ h) (by decide)
  · intro h
    exact absurd (child_injective _ _ _ h) (by decide)
  · intro h
    exact absurd (child_injective _ _ _ h) (by decide)
  · intro c₂ h
    unfold OperationConfig.TmpDir OperationConfig.CacheDir OperationConfig.OutputDir
    rw [h]
    exact ⟨rfl, rfl, rfl⟩

theorem data_dirs_under_cypressRoot_witness :
    (OperationConfig.mk "hahn" "pool" "title" "//home/ytrecipe" 0 0 true (0 : Nat) 0 0 false
        true () () : OperationConfig Nat Unit).TmpDir =
      (OperationConfig.mk "freud" "" "" "//home/ytrecipe" 3600 60 false (4 : Nat) 1024 300 true
        false () () : OperationConfig Nat Unit).TmpDir :=
  ((data_dirs_under_cypressRoot
      (OperationConfig.mk "freud" "" "" "//home/ytrecipe" 3600 60 false (4 : Nat) 1024 300 true
        false () () : OperationConfig Nat Unit)).2.2.2
    (OperationConfig.mk "hahn" "pool" "title" "//home/ytrecipe" 0 0 true (0 : Nat) 0 0 false
      true () ()) rfl).1

end job
